import Mathlib

/-!
Verification of the next3 snapshot core (fs/next3/snapshot.c and the
snapshot_ctl part of the same translation unit) against its
natural-language specification.

The development shallowly embeds the C functions that the claims are
about.  Machine integers are modelled as `Nat` with explicit 32-bit
masking where the C performs bitwise operations on `u32` fields
(little-endian conversions `cpu_to_le32`/`le32_to_cpu` are identities in
this model).  Buffers, inodes and the journal are modelled as explicit
state records; fallible kernel helpers are modelled by boolean oracles
recorded in the state.
-/

/-- Bitwise complement of a 32-bit word, i.e. the C expression `~m` on a
`u32` value `m`. -/
def comp32 (m : Nat) : Nat := m ^^^ (2 ^ 32 - 1)

/-- errno EPERM (returned by the C code as `-EPERM`). -/
def EPERM : Int := 1

/-- errno EINVAL (returned by the C code as `-EINVAL`). -/
def EINVAL : Int := 22

/-- errno EIO (returned by the C code as `-EIO`). -/
def eioErr : Int := 5

/-- A feature test `x & m` interpreted as a C truth value, as done by the
`NEXT3_HAS_[RO_]COMPAT_FEATURE` macros. -/
def hasFeature (x m : Nat) : Prop := x &&& m ≠ 0

instance (x m : Nat) : Decidable (hasFeature x m) := by
  unfold hasFeature; infer_instance

/-- Modelled from the spec: feature flag bit mask for the journaling
compat feature (`NEXT3_FEATURE_COMPAT_HAS_JOURNAL` from next3_fs.h,
which is not part of this tree).  The exact bit position is immaterial
to the claims; only that it is a single, distinct bit. -/
def NEXT3_FEATURE_COMPAT_HAS_JOURNAL : Nat := 0x0004

/-- Modelled from the spec: ro-compat feature bit `HAS_SNAPSHOT`
(next3_fs.h is not part of this tree); a single distinct bit. -/
def NEXT3_FEATURE_RO_COMPAT_HAS_SNAPSHOT : Nat := 0x0080

/-- Modelled from the spec: ro-compat feature bit `IS_SNAPSHOT`
(next3_fs.h is not part of this tree); a single distinct bit. -/
def NEXT3_FEATURE_RO_COMPAT_IS_SNAPSHOT : Nat := 0x0100

/-- Modelled from the spec: ro-compat feature bit `FIX_EXCLUDE`
(next3_fs.h is not part of this tree); a single distinct bit. -/
def NEXT3_FEATURE_RO_COMPAT_FIX_EXCLUDE : Nat := 0x0200

/-- The superblock fields touched by the snapshot core
(struct next3_super_block, little-endian u32 fields). -/
structure Next3SuperBlock where
  s_feature_compat : Nat
  s_feature_ro_compat : Nat
  s_journal_inum : Nat
  s_snapshot_inum : Nat
  s_last_snapshot : Nat
  s_snapshot_id : Nat
  deriving Repr, DecidableEq

/-- The superblock patch performed by `next3_snapshot_take` on the copy
of the live superblock stored in the snapshot's reserved block 0
(snapshot.c, the `CONFIG_NEXT3_FS_SNAPSHOT_CTL_FIX` section of
`next3_snapshot_take`): clear `HAS_JOURNAL` and the journal inode
number, clear `HAS_SNAPSHOT`, the snapshot inode number and the last
snapshot pointer, and set `IS_SNAPSHOT`. -/
def next3_snapshot_take_fix_super (es : Next3SuperBlock) : Next3SuperBlock :=
  { es with
    s_feature_compat :=
      es.s_feature_compat &&& comp32 NEXT3_FEATURE_COMPAT_HAS_JOURNAL,
    s_journal_inum := 0,
    s_feature_ro_compat :=
      (es.s_feature_ro_compat &&& comp32 NEXT3_FEATURE_RO_COMPAT_HAS_SNAPSHOT)
        ||| NEXT3_FEATURE_RO_COMPAT_IS_SNAPSHOT,
    s_snapshot_inum := 0,
    s_last_snapshot := 0 }

/-- Clearing a single-bit feature through a 32-bit complement mask
really clears that bit: `(x & ~(2^k)) & 2^k = 0`. -/
theorem land_comp32_two_pow (x k : Nat) (hk : k < 32) :
    (x &&& comp32 (2 ^ k)) &&& 2 ^ k = 0 := by
  apply Nat.eq_of_testBit_eq
  intro i
  simp only [Nat.testBit_land, Nat.zero_testBit, comp32, Nat.testBit_xor,
    Nat.testBit_two_pow_sub_one, Nat.testBit_two_pow]
  by_cases hik : k = i
  · subst hik
    simp [hk]
  · simp [hik]

/-- Setting a single-bit feature through `|` really sets that bit:
`(x | 2^k) & 2^k ≠ 0`. -/
theorem lor_two_pow_hasFeature (x k : Nat) :
    hasFeature (x ||| 2 ^ k) (2 ^ k) := by
  intro h
  have hbit : ((x ||| 2 ^ k) &&& 2 ^ k).testBit k = false := by
    rw [h]; exact Nat.zero_testBit k
  rw [Nat.testBit_land, Nat.testBit_lor, Nat.testBit_two_pow] at hbit
  simp at hbit

/-- Clearing bit `j` and setting a different bit `k` leaves bit `j`
clear: `((x & ~(2^j)) | 2^k) & 2^j = 0` when `j ≠ k`. -/
theorem land_comp32_lor_two_pow (x j k : Nat) (hj : j < 32) (hjk : k ≠ j) :
    ((x &&& comp32 (2 ^ j)) ||| 2 ^ k) &&& 2 ^ j = 0 := by
  apply Nat.eq_of_testBit_eq
  intro i
  simp only [Nat.testBit_land, Nat.testBit_lor, Nat.zero_testBit, comp32,
    Nat.testBit_xor, Nat.testBit_two_pow_sub_one, Nat.testBit_two_pow]
  by_cases hij : j = i
  · subst hij
    simp [hj, hjk]
  · simp [hij]

/-- C5: after `next3_snapshot_take` the superblock copy stored at the
snapshot's reserved offset 0 has the journaling compat feature and the
journal inode number cleared, the `HAS_SNAPSHOT` ro-compat feature,
the snapshot inode number and the last-snapshot pointer cleared, and
the `IS_SNAPSHOT` ro-compat feature set. -/
theorem C5_take_super_image_self_consistency (es : Next3SuperBlock) :
    ¬ hasFeature (next3_snapshot_take_fix_super es).s_feature_compat
        NEXT3_FEATURE_COMPAT_HAS_JOURNAL ∧
    (next3_snapshot_take_fix_super es).s_journal_inum = 0 ∧
    ¬ hasFeature (next3_snapshot_take_fix_super es).s_feature_ro_compat
        NEXT3_FEATURE_RO_COMPAT_HAS_SNAPSHOT ∧
    (next3_snapshot_take_fix_super es).s_snapshot_inum = 0 ∧
    (next3_snapshot_take_fix_super es).s_last_snapshot = 0 ∧
    hasFeature (next3_snapshot_take_fix_super es).s_feature_ro_compat
        NEXT3_FEATURE_RO_COMPAT_IS_SNAPSHOT := by
  have hj : NEXT3_FEATURE_COMPAT_HAS_JOURNAL = 2 ^ 2 := by
    unfold NEXT3_FEATURE_COMPAT_HAS_JOURNAL; norm_num
  have hs : NEXT3_FEATURE_RO_COMPAT_HAS_SNAPSHOT = 2 ^ 7 := by
    unfold NEXT3_FEATURE_RO_COMPAT_HAS_SNAPSHOT; norm_num
  have hi : NEXT3_FEATURE_RO_COMPAT_IS_SNAPSHOT = 2 ^ 8 := by
    unfold NEXT3_FEATURE_RO_COMPAT_IS_SNAPSHOT; norm_num
  refine ⟨?_, rfl, ?_, rfl, rfl, ?_⟩
  · show ¬ hasFeature
      (es.s_feature_compat &&& comp32 NEXT3_FEATURE_COMPAT_HAS_JOURNAL)
      NEXT3_FEATURE_COMPAT_HAS_JOURNAL
    rw [hj]
    intro h
    exact h (land_comp32_two_pow es.s_feature_compat 2 (by norm_num))
  · show ¬ hasFeature
      ((es.s_feature_ro_compat &&&
          comp32 NEXT3_FEATURE_RO_COMPAT_HAS_SNAPSHOT) |||
        NEXT3_FEATURE_RO_COMPAT_IS_SNAPSHOT)
      NEXT3_FEATURE_RO_COMPAT_HAS_SNAPSHOT
    rw [hs, hi]
    intro h
    exact h
      (land_comp32_lor_two_pow es.s_feature_ro_compat 7 8 (by norm_num)
        (by norm_num))
  · show hasFeature
      ((es.s_feature_ro_compat &&&
          comp32 NEXT3_FEATURE_RO_COMPAT_HAS_SNAPSHOT) |||
        NEXT3_FEATURE_RO_COMPAT_IS_SNAPSHOT)
      NEXT3_FEATURE_RO_COMPAT_IS_SNAPSHOT
    rw [hi]
    exact lor_two_pow_hasFeature _ 8

/-- Modelled from the spec: `SNAPSHOT_ADDR_PER_BLOCK` (snapshot.h is not
part of this tree).  Block size equals page size (4096 bytes per the
spec data model), so a block holds 1024 32-bit words. -/
def SNAPSHOT_ADDR_PER_BLOCK : Nat := 1024

/-- Modelled from the spec: `SNAPSHOT_BLOCKS_PER_GROUP` (snapshot.h is
not part of this tree): bits per bitmap block = 4096 * 8. -/
def SNAPSHOT_BLOCKS_PER_GROUP : Nat := 32768

/-- Modelled from the spec: the reserved-prefix size
`SNAPSHOT_BLOCK_OFFSET` (snapshot.h is not part of this tree).  Only its
role as boundary of the reserved header region matters to the claims;
the concrete value is an arbitrary fixed constant. -/
def SNAPSHOT_BLOCK_OFFSET : Nat := 1024

/-- `SNAPSHOT_IBLOCK(p) = p + SNAPSHOT_BLOCK_OFFSET`: the snapshot-file
logical block that preserves physical block `p` (spec: reserved offset
shift). -/
def SNAPSHOT_IBLOCK (p : Nat) : Nat := p + SNAPSHOT_BLOCK_OFFSET

/-- One word of the loop body of `__next3_snapshot_copy_bitmap`:
`*pd++ = *ps++ & ~*pm++` on u32 words. -/
def wordAndNot (s m : Nat) : Nat := s &&& comp32 m

/-- A buffer holding a bitmap block, with its uptodate bit
(`set_buffer_uptodate`). -/
structure CowBuf where
  data : List Nat
  uptodate : Bool
  deriving Repr, DecidableEq

/-- `__next3_snapshot_copy_bitmap` (snapshot.c:26): clear exclude-bitmap
bits from the block bitmap word by word and mark the snapshot buffer
uptodate.  The C loop runs over the `SNAPSHOT_ADDR_PER_BLOCK` words of
full bitmap blocks; on full blocks that is exactly the word-wise zip. -/
def __next3_snapshot_copy_bitmap (src mask : List Nat) : CowBuf :=
  { data := List.zipWith wordAndNot src mask, uptodate := true }

/-- Inputs available to `next3_snapshot_init_cow_bitmap`: the group's
live block bitmap (`read_block_bitmap`, `none` on read failure), the
group's exclude bitmap (`read_exclude_bitmap`, `none` on failure), and
the journal head's committed copy of the block bitmap
(`jh->b_committed_data`, `none` when absent). -/
structure BitmapReadState where
  blockBitmap : Option (List Nat)
  excludeBitmap : Option (List Nat)
  committedData : Option (List Nat)
  deriving Repr, DecidableEq

/-- `next3_snapshot_init_cow_bitmap` (snapshot.c:401): read the block
bitmap (fail with -EIO if unavailable), choose the journal's committed
copy as source when present, mask with the exclude bitmap and mark the
COW bitmap buffer uptodate.  The outer `none` models the kernel fault
the C code would take when `read_exclude_bitmap` fails (the C
dereferences the NULL `mask` inside `__next3_snapshot_copy_bitmap`);
no claim concerns that case. -/
def next3_snapshot_init_cow_bitmap (st : BitmapReadState) :
    Option (Except Int CowBuf) :=
  match st.blockBitmap with
  | none => some (Except.error (-eioErr))
  | some bb =>
    let src := match st.committedData with
      | some c => c
      | none => bb
    match st.excludeBitmap with
    | none => none
    | some mask => some (Except.ok (__next3_snapshot_copy_bitmap src mask))

/-- C2: the COW bitmap materialized for a block group equals the block
bitmap AND NOT the exclude bitmap, word by word and bit by bit, where
the source block bitmap is the journal's committed copy when one
exists (otherwise the live bitmap), and the resulting buffer is marked
uptodate. -/
theorem C2_cow_bitmap_is_masked_committed_bitmap
    (st : BitmapReadState) (bb mask : List Nat)
    (hbb : st.blockBitmap = some bb) (hmask : st.excludeBitmap = some mask) :
    next3_snapshot_init_cow_bitmap st =
      some (Except.ok
        { data := List.zipWith wordAndNot (st.committedData.getD bb) mask,
          uptodate := true }) ∧
    (∀ s m k : Nat, k < 32 →
      (wordAndNot s m).testBit k = (s.testBit k && ! m.testBit k)) := by
  constructor
  · unfold next3_snapshot_init_cow_bitmap
    rw [hbb, hmask]
    cases hc : st.committedData with
    | none => rfl
    | some c => rfl
  · intro s m k hk
    unfold wordAndNot comp32
    rw [Nat.testBit_land, Nat.testBit_xor, Nat.testBit_two_pow_sub_one]
    simp [hk]

/-- Witness for C2 at a concrete input: live bitmap word 0b1111,
committed copy 0b1010, exclude word 0b0010; the committed copy is the
source, so the COW bitmap word is 0b1000. -/
theorem C2_witness :
    next3_snapshot_init_cow_bitmap
        { blockBitmap := some [15], excludeBitmap := some [2],
          committedData := some [10] } =
      some (Except.ok { data := [8], uptodate := true }) := by
  have h := C2_cow_bitmap_is_masked_committed_bitmap
    { blockBitmap := some [15], excludeBitmap := some [2],
      committedData := some [10] } [15] [2] rfl rfl
  rw [h.1]
  rfl

/-- A JBD transaction handle as seen by the snapshot hooks: the current
transaction id (`handle->h_transaction->t_tid`) and the COW re-entrancy
flag (`handle->h_cowing`). -/
structure JournalHandle where
  tid : Nat
  cowing : Bool
  deriving Repr, DecidableEq

/-- Modelled from the spec: the `SNAPMAP_*` block-access commands of
snapshot.h (not part of this tree).  `read` is the zero command
(`SNAPMAP_READ`), `write` the ordinary create command, and `bitmap`,
`cow`, `move` are the special snapshot commands recognized by
`SNAPMAP_ISSPECIAL`. -/
inductive SnapmapCmd
  | read
  | write
  | bitmap
  | cow
  | move
  deriving Repr, DecidableEq

/-- Modelled from the spec: `SNAPMAP_ISSPECIAL(cmd)` is true exactly for
the special snapshot commands used by `test_and_cow` itself. -/
def SNAPMAP_ISSPECIAL (c : SnapmapCmd) : Bool :=
  match c with
  | .bitmap | .cow | .move => true
  | _ => false

/-- C truth value of `cmd` (`if (cmd)`): every command other than
`SNAPMAP_READ` (= 0) is nonzero. -/
def cmdNonzero (c : SnapmapCmd) : Bool := c ≠ SnapmapCmd.read

/-- Where `ei->i_orphan.prev` of a snapshot inode points: nowhere (the
inode is not linked on the snapshot chain, `list_empty(prev)`), at the
chain-head sentinel (`&sbi->s_snapshot_list`), or at another snapshot
inode, of which we record the `LIST` flag and identity. -/
inductive PrevPtr
  | unlinked
  | head
  | node (listFl : Bool) (ino : Nat)
  deriving Repr, DecidableEq

/-- The state of the snapshot inode consulted by
`next3_snapshot_get_inode_access`. -/
structure InodeAccessState where
  listFl : Bool
  activeFl : Bool
  isActive : Bool
  prev : PrevPtr
  deriving Repr, DecidableEq

/-- Result of `next3_snapshot_get_inode_access`: either a fired
`BUG_ON`, or the returned value together with the routed
`*prev_snapshot` (the inode number of the previous snapshot, `none`
for read through to the block device). -/
inductive AccessResult
  | bug
  | res (ret : Int) (prevSnapshot : Option Nat)
  deriving Repr, DecidableEq

/-- `next3_snapshot_get_inode_access` (snapshot.c:190): grant or deny
access to a snapshot inode.  Returns 0 for normal inode access, 1 for
snapshot-image read-through access (with `*prev_snapshot` routed),
negative errno when access is not granted. -/
def next3_snapshot_get_inode_access (handle : Option JournalHandle)
    (st : InodeAccessState) (iblock : Nat) (cmd : SnapmapCmd) : AccessResult :=
  if SNAPMAP_ISSPECIAL cmd then
    match handle with
    | none => .bug
    | some h =>
      if ¬ h.cowing then .bug
      else if ¬ st.activeFl then .bug
      else if iblock < SNAPSHOT_BLOCK_OFFSET then .bug
      else .res 0 none
  else if cmdNonzero cmd &&
      (match handle with | some h => h.cowing | none => false) then .bug
  else if ¬ st.listFl then .res 0 none
  else if cmdNonzero cmd then .res (-EPERM) none
  else if iblock < SNAPSHOT_BLOCK_OFFSET then .res 0 none
  else if handle.isSome then .res 0 none
  else
    match st.prev with
    | .unlinked => .res (-eioErr) none
    | .head => if st.isActive then .res 1 none else .res (-eioErr) none
    | .node prevListFl prevIno =>
        if ¬ prevListFl then .res 1 none else .res 1 (some prevIno)

/-- errno ENOSPC (allocation failure). -/
def ENOSPC : Int := 28

/-- Modelled from the spec: the well-known exclude inode number
(`NEXT3_EXCLUDE_INO` of next3_fs.h, which is not part of this tree). -/
def NEXT3_EXCLUDE_INO : Nat := 9

/-- `next3_snapshot_exclude_inode(inode)` (snapshot.h, not in tree):
whether the inode is the exclude-bitmap inode. -/
def next3_snapshot_exclude_inode (i : Nat) : Bool := i = NEXT3_EXCLUDE_INO

/-- The buffer-head attributes of the block handed to
`next3_snapshot_test_and_cow`. -/
structure BufArg where
  blocknr : Nat
  mapped : Bool
  uptodate : Bool
  deriving Repr, DecidableEq

/-- `enum snapshot_cmd` (snapshot.c:809). -/
inductive SnapshotCmd
  | read
  | copy
  | move
  | clear
  deriving Repr, DecidableEq

/-- The file-system state read and written by the COW decision engine.
Function-valued fields are indexed by physical block number (or inode
number for `excluded`); boolean fields are oracles for the outcomes of
the external kernel helpers the engine calls. -/
structure CowState where
  /-- `sbi->s_active_snapshot`, by inode number (`none`: no active). -/
  activeIno : Option Nat
  /-- `SNAPSHOT_BLOCKS(active)`: f/s block count at snapshot take. -/
  snapshotBlocks : Nat
  /-- whether `next3_snapshot_read_cow_bitmap` succeeds. -/
  cowBitmapRead : Bool
  /-- the bits of the COW bitmap, indexed by physical block. -/
  cowBit : Nat → Bool
  /-- blocks mapped in the active snapshot file at `SNAPSHOT_IBLOCK`. -/
  snapMapped : Nat → Bool
  /-- `jh->b_cow_tid` of the journaled buffer at a block
  (`none`: the buffer has no journal head, `!buffer_jbd`). -/
  jhCowTid : Nat → Option Nat
  /-- `next3_snapshot_excluded(inode)`: negative for excluded files. -/
  excluded : Nat → Int
  /-- the bits of the exclude bitmap. -/
  excludeBit : Nat → Bool
  /-- `read_exclude_bitmap` succeeds in `exclude_blocks`. -/
  excludeReadOk : Bool
  /-- journal write access / dirty metadata succeed in `exclude_blocks`. -/
  excludeWriteOk : Bool
  /-- the `FIX_EXCLUDE` ro-compat feature has been set by `next3_error`. -/
  fixExclude : Bool
  /-- `next3_getblk(SNAPMAP_COW)` can allocate a snapshot block. -/
  allocOk : Bool
  /-- `next3_snapshot_copy_buffer_cow` (journal dirty data) succeeds. -/
  copyOk : Bool
  /-- `ll_rw_block` read brings a non-uptodate source buffer uptodate. -/
  readBufOk : Bool
  /-- `next3_snapshot_zero_buffer` succeeds (EXCLUDE_FILES path). -/
  zeroOk : Bool
  /-- `next3_snapshot_map_blocks(SNAPMAP_MOVE)` succeeds. -/
  moveOk : Bool

/-- `next3_snapshot_test_cowed` (snapshot.c:765): the buffer is
journaled and its journal head's `b_cow_tid` equals the running
transaction's tid. -/
def next3_snapshot_test_cowed (handle : JournalHandle) (bh : Option BufArg)
    (st : CowState) : Bool :=
  match bh with
  | none => false
  | some b =>
    match st.jhCowTid b.blocknr with
    | some t => t == handle.tid
    | none => false

/-- `next3_snapshot_mark_cowed` (snapshot.c:787): record the running
transaction's tid in the journal head of a journaled buffer. -/
def next3_snapshot_mark_cowed (handle : JournalHandle) (bh : Option BufArg)
    (st : CowState) : CowState :=
  match bh with
  | none => st
  | some b =>
    match st.jhCowTid b.blocknr with
    | none => st
    | some _ =>
      { st with jhCowTid := fun n =>
          if n = b.blocknr then some handle.tid else st.jhCowTid n }

/-- The bit-testing loop of `next3_snapshot_test_cow_bitmap`
(snapshot.c:653): count consecutive set bits starting at `bit`,
stopping at the first clear bit, at the group boundary, or after
`count` bits. -/
def cowBitmapCount (f : Nat → Bool) (bit : Nat) : Nat → Nat
  | 0 => 0
  | c + 1 =>
    if bit < SNAPSHOT_BLOCKS_PER_GROUP && f bit then
      1 + cowBitmapCount f (bit + 1) c
    else 0

/-- `next3_snapshot_test_cow_bitmap` (snapshot.c:628): blocks past the
snapshot's recorded f/s size are never in use by the snapshot; else
read the COW bitmap (the second component records whether
`next3_snapshot_read_cow_bitmap` was invoked) and count set bits. -/
def next3_snapshot_test_cow_bitmap (st : CowState) (block : Nat)
    (count : Nat) : Int × Bool :=
  if block ≥ st.snapshotBlocks then (0, false)
  else if ¬ st.cowBitmapRead then (-eioErr, true)
  else
    let bit := block % SNAPSHOT_BLOCKS_PER_GROUP
    ((cowBitmapCount (fun i => st.cowBit (block - bit + i)) bit count : Nat),
      true)

/-- The bit-setting loop of `next3_snapshot_exclude_blocks`
(snapshot.c:689): set `count` bits from `bit` on (bounded by the group
boundary), returning how many were newly set and the updated bitmap. -/
def excludeLoop (g : Nat → Bool) (groupStart bit : Nat) :
    Nat → Nat × (Nat → Bool)
  | 0 => (0, g)
  | c + 1 =>
    if bit < SNAPSHOT_BLOCKS_PER_GROUP then
      let newly := if g (groupStart + bit) then 0 else 1
      let g2 := fun n => if n = groupStart + bit then true else g n
      let r := excludeLoop g2 groupStart (bit + 1) c
      (newly + r.1, r.2)
    else (0, g)

/-- `next3_snapshot_exclude_blocks` (snapshot.c:672): idempotently set
`count` bits in the exclude bitmap; returns the number of newly set
bits (0 as a no-op when the exclude bitmap cannot be read, an error
when journal access fails). -/
def next3_snapshot_exclude_blocks (st : CowState) (block count : Nat) :
    Int × CowState :=
  if ¬ st.excludeReadOk then (0, st)
  else if ¬ st.excludeWriteOk then (-eioErr, st)
  else
    let bit := block % SNAPSHOT_BLOCKS_PER_GROUP
    let r := excludeLoop st.excludeBit (block - bit) bit count
    ((r.1 : Nat), { st with excludeBit := r.2 })

/-- Result of one `next3_snapshot_test_and_cow` invocation: the returned
value, the post state, and whether this invocation allocated a new
snapshot block for the target block (the alloc-and-copy step). -/
structure CowResult where
  ret : Int
  st : CowState
  allocated : Bool

/-- The `cowed:` tail of `next3_snapshot_test_and_cow`
(snapshot.c:1110): mark the buffer COWed in the running transaction,
then mark the blocks in the exclude bitmap when the owner is an
excluded file (`clear != 0`). -/
def test_and_cow_cowed (handle : JournalHandle) (bh : Option BufArg)
    (block count : Nat) (clear : Int) (err : Int) (alloc : Bool)
    (st : CowState) : CowResult :=
  let st1 := next3_snapshot_mark_cowed handle bh st
  if clear ≠ 0 then
    let r := next3_snapshot_exclude_blocks st1 block count
    ⟨if r.1 < 0 then r.1 else err, r.2, alloc⟩
  else ⟨err, st1, alloc⟩

/-- The part of `next3_snapshot_test_and_cow` following the COW-bitmap
test (snapshot.c:926 on), with the bitmap-test result passed in as
`tcb` and the `next3_snapshot_excluded` result as `clear`: the
exclude-inconsistency fs-error, the no-COW-needed path, the
already-mapped test, and the MOVE / COPY execution paths, all
funnelling through the `cowed:` tail.  In this sequential model the
`SNAPMAP_COW` allocation always allocates a fresh block, since the
already-mapped test just above it has excluded `snapMapped` (the C
branch for losing an allocation race cannot be taken without
interleaving). -/
def test_and_cow_exec (handle : JournalHandle) (inode : Option Nat)
    (bh : Option BufArg) (block : Nat) (maxblocks : Nat) (cmd : SnapshotCmd)
    (clear : Int) (tcb : Int) (st : CowState) : CowResult :=
  if tcb < 0 then ⟨tcb, st, false⟩
  else if tcb > 0 ∧ clear < 0 then
    test_and_cow_cowed handle bh block maxblocks clear 0 false
      { st with fixExclude := true }
  else if tcb = 0 then
    test_and_cow_cowed handle bh block maxblocks clear 0 false st
  else if st.snapMapped block then
    if clear ≠ 0 ∧ ¬ st.zeroOk then ⟨-eioErr, st, false⟩
    else test_and_cow_cowed handle bh block tcb.toNat clear 0 false st
  else if cmd = SnapshotCmd.read then ⟨(tcb.toNat : Nat), st, false⟩
  else if cmd = SnapshotCmd.move then
    match inode with
    | none => test_and_cow_cowed handle bh block tcb.toNat clear 0 false st
    | some _ =>
      if (if st.moveOk then tcb.toNat else 0) > 0 then
        test_and_cow_cowed handle bh block
          (if st.moveOk then tcb.toNat else 0) (-1) 0 false
          { st with snapMapped := fun n =>
              if block ≤ n ∧ n < block + (if st.moveOk then tcb.toNat else 0)
              then true else st.snapMapped n }
      else ⟨0, st, false⟩
  else if cmd = SnapshotCmd.clear then ⟨(tcb.toNat : Nat), st, false⟩
  else
    match bh with
    | none => ⟨-eioErr, st, false⟩
    | some b =>
      if ¬ b.mapped ∨ b.blocknr ≠ block then ⟨-eioErr, st, false⟩
      else if ¬ b.uptodate ∧ ¬ st.readBufOk then ⟨-eioErr, st, false⟩
      else if ¬ st.allocOk then ⟨-ENOSPC, st, false⟩
      else if ¬ st.copyOk then
        ⟨-eioErr,
          { st with snapMapped := fun n =>
              if n = block then true else st.snapMapped n }, true⟩
      else if clear ≠ 0 ∧ ¬ st.zeroOk then
        ⟨-eioErr,
          { st with snapMapped := fun n =>
              if n = block then true else st.snapMapped n }, true⟩
      else
        test_and_cow_cowed handle bh block tcb.toNat clear 0 true
          { st with snapMapped := fun n =>
              if n = block then true else st.snapMapped n }

/-- `next3_snapshot_test_and_cow` (snapshot.c:836): the COW decision
engine.  Early-outs: no active snapshot; exclude-inode updates; COW
re-entrancy (`handle->h_cowing`); writes to the active snapshot are
denied with `-EPERM`; buffers already COWed in the running transaction
(journal COW cache).  Then `next3_snapshot_excluded` may force the
command down to a probe (`clear < 0`), the COW bitmap is tested, and
`test_and_cow_exec` carries out the rest. -/
def next3_snapshot_test_and_cow (handle : JournalHandle) (inode : Option Nat)
    (bh : Option BufArg) (block : Nat) (maxblocks : Nat) (cmd : SnapshotCmd)
    (st : CowState) : CowResult :=
  match st.activeIno with
  | none => ⟨0, st, false⟩
  | some active =>
    if (match inode with
        | some i => next3_snapshot_exclude_inode i
        | none => false) then ⟨0, st, false⟩
    else if handle.cowing then ⟨0, st, false⟩
    else if inode = some active then ⟨-EPERM, st, false⟩
    else if next3_snapshot_test_cowed handle bh st then ⟨0, st, false⟩
    else
      test_and_cow_exec handle inode bh block maxblocks
        (if (match inode with
             | some i => st.excluded i
             | none => 0) < 0 then SnapshotCmd.read else cmd)
        (match inode with
         | some i => st.excluded i
         | none => 0)
        (next3_snapshot_test_cow_bitmap st block maxblocks).1 st

/-- C4: writes to a snapshot inode are denied with `-EPERM`:
`next3_snapshot_test_and_cow` denies when the owning inode is the
active snapshot and the caller is not already COWing, and
`next3_snapshot_get_inode_access` denies any non-special write-access
command on a snapshot inode that is on the snapshot list. -/
theorem C4_snapshot_write_denied :
    (∀ (handle : JournalHandle) (inode : Option Nat) (bh : Option BufArg)
        (block maxblocks : Nat) (cmd : SnapshotCmd) (st : CowState) (a : Nat),
      st.activeIno = some a → inode = some a → handle.cowing = false →
      next3_snapshot_exclude_inode a = false →
      next3_snapshot_test_and_cow handle inode bh block maxblocks cmd st =
        ⟨-EPERM, st, false⟩) ∧
    (∀ (handle : Option JournalHandle) (st : InodeAccessState) (iblock : Nat)
        (cmd : SnapmapCmd),
      SNAPMAP_ISSPECIAL cmd = false → cmdNonzero cmd = true →
      (match handle with | some h => h.cowing | none => false) = false →
      st.listFl = true →
      next3_snapshot_get_inode_access handle st iblock cmd =
        AccessResult.res (-EPERM) none) := by
  constructor
  · intro handle inode bh block maxblocks cmd st a ha hi hc he
    unfold next3_snapshot_test_and_cow
    rw [ha, hi]
    simp [he, hc]
  · intro handle st iblock cmd hsp hnz hc hl
    unfold next3_snapshot_get_inode_access
    rw [hsp, hnz, hc, hl]
    simp

/-- Witness for C4 at concrete inputs: an attempted data write owned by
the active snapshot inode 12 is denied, and a write command on a
listed snapshot inode is denied. -/
theorem C4_witness :
    next3_snapshot_test_and_cow ⟨7, false⟩ (some 12) none 3 1 SnapshotCmd.copy
        { activeIno := some 12, snapshotBlocks := 100, cowBitmapRead := true,
          cowBit := fun _ => false, snapMapped := fun _ => false,
          jhCowTid := fun _ => none, excluded := fun _ => 0,
          excludeBit := fun _ => false, excludeReadOk := true,
          excludeWriteOk := true, fixExclude := false, allocOk := true,
          copyOk := true, readBufOk := true, zeroOk := true,
          moveOk := true } =
      ⟨-EPERM,
        { activeIno := some 12, snapshotBlocks := 100, cowBitmapRead := true,
          cowBit := fun _ => false, snapMapped := fun _ => false,
          jhCowTid := fun _ => none, excluded := fun _ => 0,
          excludeBit := fun _ => false, excludeReadOk := true,
          excludeWriteOk := true, fixExclude := false, allocOk := true,
          copyOk := true, readBufOk := true, zeroOk := true,
          moveOk := true }, false⟩ ∧
    next3_snapshot_get_inode_access (some ⟨7, false⟩)
        { listFl := true, activeFl := false, isActive := false,
          prev := PrevPtr.head } (SNAPSHOT_BLOCK_OFFSET + 5) SnapmapCmd.write =
      AccessResult.res (-EPERM) none := by
  constructor
  · exact C4_snapshot_write_denied.1 ⟨7, false⟩ (some 12) none 3 1
      SnapshotCmd.copy _ 12 rfl rfl rfl (by decide)
  · exact C4_snapshot_write_denied.2 (some ⟨7, false⟩) _
      (SNAPSHOT_BLOCK_OFFSET + 5) SnapmapCmd.write rfl rfl rfl rfl

theorem mark_cowed_snapMapped (handle : JournalHandle) (bh : Option BufArg)
    (st : CowState) :
    (next3_snapshot_mark_cowed handle bh st).snapMapped = st.snapMapped := by
  unfold next3_snapshot_mark_cowed
  cases bh with
  | none => rfl
  | some b =>
    simp only
    cases h : st.jhCowTid b.blocknr with
    | none => simp [h]
    | some t => simp [h]

theorem exclude_blocks_snapMapped (st : CowState) (block count : Nat) :
    (next3_snapshot_exclude_blocks st block count).2.snapMapped =
      st.snapMapped := by
  unfold next3_snapshot_exclude_blocks
  split
  · rfl
  · split <;> rfl

theorem cowed_allocated (handle : JournalHandle) (bh : Option BufArg)
    (block count : Nat) (clear err : Int) (alloc : Bool) (st : CowState) :
    (test_and_cow_cowed handle bh block count clear err alloc st).allocated =
      alloc := by
  unfold test_and_cow_cowed
  split <;> rfl

theorem cowed_snapMapped (handle : JournalHandle) (bh : Option BufArg)
    (block count : Nat) (clear err : Int) (alloc : Bool) (st : CowState) :
    (test_and_cow_cowed handle bh block count clear err alloc st).st.snapMapped
      = st.snapMapped := by
  unfold test_and_cow_cowed
  split
  · rw [exclude_blocks_snapMapped, mark_cowed_snapMapped]
  · rw [mark_cowed_snapMapped]

/-- C10: a block at or past the filesystem block count recorded in the
active snapshot at take time is never considered in use:
`next3_snapshot_test_cow_bitmap` returns 0 for it without reading any
COW bitmap, and consequently `next3_snapshot_test_and_cow` neither
allocates a snapshot block for it nor moves it to the snapshot. -/
theorem C10_resize_guard :
    (∀ (st : CowState) (block count : Nat), st.snapshotBlocks ≤ block →
      next3_snapshot_test_cow_bitmap st block count = (0, false)) ∧
    (∀ (handle : JournalHandle) (inode : Option Nat) (bh : Option BufArg)
        (block maxblocks : Nat) (cmd : SnapshotCmd) (st : CowState),
      st.snapshotBlocks ≤ block →
      (next3_snapshot_test_and_cow handle inode bh block maxblocks cmd
          st).allocated = false ∧
      (next3_snapshot_test_and_cow handle inode bh block maxblocks cmd
          st).st.snapMapped = st.snapMapped) := by
  have hbm : ∀ (st : CowState) (block count : Nat), st.snapshotBlocks ≤ block →
      next3_snapshot_test_cow_bitmap st block count = (0, false) := by
    intro st block count h
    unfold next3_snapshot_test_cow_bitmap
    rw [if_pos h]
  refine ⟨hbm, ?_⟩
  intro handle inode bh block maxblocks cmd st h
  unfold next3_snapshot_test_and_cow
  cases hact : st.activeIno with
  | none => exact ⟨rfl, rfl⟩
  | some active =>
    simp only
    split
    · exact ⟨rfl, rfl⟩
    split
    · exact ⟨rfl, rfl⟩
    split
    · exact ⟨rfl, rfl⟩
    split
    · exact ⟨rfl, rfl⟩
    have htcb : (next3_snapshot_test_cow_bitmap st block maxblocks).1 = 0 := by
      rw [hbm st block maxblocks h]
    rw [htcb]
    unfold test_and_cow_exec
    norm_num
    exact ⟨cowed_allocated _ _ _ _ _ _ _ _, cowed_snapMapped _ _ _ _ _ _ _ _⟩

/-- Witness for C10: block 150 is past a snapshot that recorded 100
blocks; the bitmap test returns 0 without reading, and the full COW
path for that block does not allocate. -/
theorem C10_witness :
    next3_snapshot_test_cow_bitmap
        { activeIno := some 12, snapshotBlocks := 100, cowBitmapRead := true,
          cowBit := fun _ => true, snapMapped := fun _ => false,
          jhCowTid := fun _ => none, excluded := fun _ => 0,
          excludeBit := fun _ => false, excludeReadOk := true,
          excludeWriteOk := true, fixExclude := false, allocOk := true,
          copyOk := true, readBufOk := true, zeroOk := true,
          moveOk := true } 150 1 = (0, false) ∧
    (next3_snapshot_test_and_cow ⟨7, false⟩ none
        (some ⟨150, true, true⟩) 150 1 SnapshotCmd.copy
        { activeIno := some 12, snapshotBlocks := 100, cowBitmapRead := true,
          cowBit := fun _ => true, snapMapped := fun _ => false,
          jhCowTid := fun _ => none, excluded := fun _ => 0,
          excludeBit := fun _ => false, excludeReadOk := true,
          excludeWriteOk := true, fixExclude := false, allocOk := true,
          copyOk := true, readBufOk := true, zeroOk := true,
          moveOk := true }).allocated = false := by
  constructor
  · exact C10_resize_guard.1 _ 150 1 (by norm_num)
  · exact (C10_resize_guard.2 ⟨7, false⟩ none (some ⟨150, true, true⟩) 150 1
      SnapshotCmd.copy _ (by norm_num)).1

/-- `next3_snapshot_get_undo_access` (snapshot.c:1217): run the COW
probe (`next3_snapshot_test_cow`, i.e. `test_and_cow` with a NULL
inode, the buffer's own block, one block, `SNAPSHOT_READ`); any
nonzero result is turned into the hard error `-EIO`. -/
def next3_snapshot_get_undo_access (handle : JournalHandle) (bh : BufArg)
    (st : CowState) : Int × CowState :=
  let r := next3_snapshot_test_and_cow handle none (some bh) bh.blocknr 1
    SnapshotCmd.read st
  (if r.ret = 0 then 0 else -eioErr, r.st)

theorem exec_read_not_allocated (handle : JournalHandle) (inode : Option Nat)
    (bh : Option BufArg) (block maxblocks : Nat) (clear tcb : Int)
    (st : CowState) :
    (test_and_cow_exec handle inode bh block maxblocks SnapshotCmd.read clear
        tcb st).allocated = false := by
  unfold test_and_cow_exec
  by_cases h1 : tcb < (0 : Int)
  · rw [if_pos h1]
  rw [if_neg h1]
  by_cases h2 : tcb > 0 ∧ clear < 0
  · rw [if_pos h2, cowed_allocated]
  rw [if_neg h2]
  by_cases h3 : tcb = 0
  · rw [if_pos h3, cowed_allocated]
  rw [if_neg h3]
  by_cases h4 : st.snapMapped block
  · rw [if_pos h4]
    by_cases h5 : clear ≠ 0 ∧ ¬ st.zeroOk
    · rw [if_pos h5]
    · rw [if_neg h5, cowed_allocated]
  rw [if_neg h4]
  rw [if_pos rfl]

theorem test_and_cow_read_not_allocated (handle : JournalHandle)
    (inode : Option Nat) (bh : Option BufArg) (block maxblocks : Nat)
    (st : CowState) :
    (next3_snapshot_test_and_cow handle inode bh block maxblocks
        SnapshotCmd.read st).allocated = false := by
  unfold next3_snapshot_test_and_cow
  cases st.activeIno with
  | none => rfl
  | some active =>
    simp only
    split
    · rfl
    split
    · rfl
    split
    · rfl
    split
    · rfl
    split
    · exact exec_read_not_allocated _ _ _ _ _ _ _ _
    · exact exec_read_not_allocated _ _ _ _ _ _ _ _

/-- C9: `next3_snapshot_get_undo_access` returns 0 when the underlying
COW probe returns 0, returns `-EIO` for every nonzero probe result,
and the probe itself (command `SNAPSHOT_READ`, i.e. `may_cow` false)
never allocates a snapshot block. -/
theorem C9_get_undo_access_hard_error (handle : JournalHandle) (bh : BufArg)
    (st : CowState) :
    ((next3_snapshot_test_and_cow handle none (some bh) bh.blocknr 1
        SnapshotCmd.read st).ret = 0 →
      (next3_snapshot_get_undo_access handle bh st).1 = 0) ∧
    ((next3_snapshot_test_and_cow handle none (some bh) bh.blocknr 1
        SnapshotCmd.read st).ret ≠ 0 →
      (next3_snapshot_get_undo_access handle bh st).1 = -eioErr) ∧
    (next3_snapshot_test_and_cow handle none (some bh) bh.blocknr 1
        SnapshotCmd.read st).allocated = false := by
  refine ⟨?_, ?_, test_and_cow_read_not_allocated _ _ _ _ _ _⟩
  · intro h
    unfold next3_snapshot_get_undo_access
    simp [h]
  · intro h
    unfold next3_snapshot_get_undo_access
    simp [h]

/-- Witness for C9 at a concrete input: no active snapshot, so the probe
returns 0 and undo access is granted with 0. -/
theorem C9_witness :
    (next3_snapshot_test_and_cow ⟨7, false⟩ none
        (some ⟨20, true, true⟩) 20 1 SnapshotCmd.read
        { activeIno := none, snapshotBlocks := 100, cowBitmapRead := true,
          cowBit := fun _ => false, snapMapped := fun _ => false,
          jhCowTid := fun _ => none, excluded := fun _ => 0,
          excludeBit := fun _ => false, excludeReadOk := true,
          excludeWriteOk := true, fixExclude := false, allocOk := true,
          copyOk := true, readBufOk := true, zeroOk := true,
          moveOk := true }).ret = 0 ∧
    (next3_snapshot_get_undo_access ⟨7, false⟩ ⟨20, true, true⟩
        { activeIno := none, snapshotBlocks := 100, cowBitmapRead := true,
          cowBit := fun _ => false, snapMapped := fun _ => false,
          jhCowTid := fun _ => none, excluded := fun _ => 0,
          excludeBit := fun _ => false, excludeReadOk := true,
          excludeWriteOk := true, fixExclude := false, allocOk := true,
          copyOk := true, readBufOk := true, zeroOk := true,
          moveOk := true }).1 = 0 := by
  refine ⟨rfl, ?_⟩
  exact (C9_get_undo_access_hard_error ⟨7, false⟩ ⟨20, true, true⟩ _).1 rfl

theorem test_cowed_of_mark (handle : JournalHandle) (b : BufArg)
    (st : CowState) (hmark : st.jhCowTid b.blocknr = some handle.tid) :
    next3_snapshot_test_cowed handle (some b) st = true := by
  unfold next3_snapshot_test_cowed
  show (match st.jhCowTid b.blocknr with
        | some t => t == handle.tid
        | none => false) = true
  rw [hmark]
  simp

theorem test_and_cow_marked_noop (handle : JournalHandle) (inode : Option Nat)
    (b : BufArg) (block maxblocks : Nat) (cmd : SnapshotCmd) (st : CowState)
    (hmark : st.jhCowTid b.blocknr = some handle.tid)
    (hact : ∀ a, st.activeIno = some a → inode ≠ some a) :
    next3_snapshot_test_and_cow handle inode (some b) block maxblocks cmd st =
      ⟨0, st, false⟩ := by
  unfold next3_snapshot_test_and_cow
  cases hA : st.activeIno with
  | none => rfl
  | some a =>
    simp only
    split
    · rfl
    split
    · rfl
    split
    · rename_i h
      exact absurd h (hact a hA)
    rw [if_pos (test_cowed_of_mark handle b st hmark)]

theorem exec_snapMapped_mono (handle : JournalHandle) (inode : Option Nat)
    (bh : Option BufArg) (block maxblocks : Nat) (cmd : SnapshotCmd)
    (clear tcb : Int) (st : CowState) (n : Nat)
    (h : st.snapMapped n = true) :
    (test_and_cow_exec handle inode bh block maxblocks cmd clear tcb
        st).st.snapMapped n = true := by
  unfold test_and_cow_exec
  by_cases h1 : tcb < (0 : Int)
  · rw [if_pos h1]; exact h
  rw [if_neg h1]
  by_cases h2 : tcb > 0 ∧ clear < 0
  · rw [if_pos h2, cowed_snapMapped]; exact h
  rw [if_neg h2]
  by_cases h3 : tcb = 0
  · rw [if_pos h3, cowed_snapMapped]; exact h
  rw [if_neg h3]
  by_cases h4 : st.snapMapped block
  · rw [if_pos h4]
    by_cases h5 : clear ≠ 0 ∧ ¬ st.zeroOk
    · rw [if_pos h5]; exact h
    · rw [if_neg h5, cowed_snapMapped]; exact h
  rw [if_neg h4]
  by_cases h6 : cmd = SnapshotCmd.read
  · rw [if_pos h6]; exact h
  rw [if_neg h6]
  by_cases h7 : cmd = SnapshotCmd.move
  · rw [if_pos h7]
    cases inode with
    | none => rw [cowed_snapMapped]; exact h
    | some i =>
      simp only
      by_cases h8 : (if st.moveOk then tcb.toNat else 0) > 0
      · rw [if_pos h8, cowed_snapMapped]
        dsimp only
        split <;> split <;> first | rfl | exact h
      · rw [if_neg h8]; exact h
  rw [if_neg h7]
  by_cases h9 : cmd = SnapshotCmd.clear
  · rw [if_pos h9]; exact h
  rw [if_neg h9]
  cases bh with
  | none => exact h
  | some b =>
    simp only
    by_cases h10 : ¬ b.mapped ∨ b.blocknr ≠ block
    · rw [if_pos h10]; exact h
    rw [if_neg h10]
    by_cases h11 : ¬ b.uptodate ∧ ¬ st.readBufOk
    · rw [if_pos h11]; exact h
    rw [if_neg h11]
    by_cases h12 : ¬ st.allocOk
    · rw [if_pos h12]; exact h
    rw [if_neg h12]
    by_cases h13 : ¬ st.copyOk
    · rw [if_pos h13]
      dsimp only
      split
      · rfl
      · exact h
    rw [if_neg h13]
    by_cases h14 : clear ≠ 0 ∧ ¬ st.zeroOk
    · rw [if_pos h14]
      dsimp only
      split
      · rfl
      · exact h
    rw [if_neg h14, cowed_snapMapped]
    dsimp only
    split
    · rfl
    · exact h

theorem test_and_cow_snapMapped_mono (handle : JournalHandle)
    (inode : Option Nat) (bh : Option BufArg) (block maxblocks : Nat)
    (cmd : SnapshotCmd) (st : CowState) (n : Nat)
    (h : st.snapMapped n = true) :
    (next3_snapshot_test_and_cow handle inode bh block maxblocks cmd
        st).st.snapMapped n = true := by
  unfold next3_snapshot_test_and_cow
  cases hA : st.activeIno with
  | none => exact h
  | some a =>
    simp only
    split
    · exact h
    split
    · exact h
    split
    · exact h
    split
    · exact h
    exact exec_snapMapped_mono _ _ _ _ _ _ _ _ _ _ h

theorem exec_alloc_unmapped (handle : JournalHandle) (inode : Option Nat)
    (bh : Option BufArg) (block maxblocks : Nat) (cmd : SnapshotCmd)
    (clear tcb : Int) (st : CowState)
    (ha : (test_and_cow_exec handle inode bh block maxblocks cmd clear tcb
        st).allocated = true) :
    st.snapMapped block = false ∧
    (test_and_cow_exec handle inode bh block maxblocks cmd clear tcb
        st).st.snapMapped block = true := by
  unfold test_and_cow_exec at ha ⊢
  by_cases h1 : tcb < (0 : Int)
  · rw [if_pos h1] at ha; exact absurd ha (by simp)
  rw [if_neg h1] at ha ⊢
  by_cases h2 : tcb > 0 ∧ clear < 0
  · rw [if_pos h2, cowed_allocated] at ha; exact absurd ha (by simp)
  rw [if_neg h2] at ha ⊢
  by_cases h3 : tcb = 0
  · rw [if_pos h3, cowed_allocated] at ha; exact absurd ha (by simp)
  rw [if_neg h3] at ha ⊢
  by_cases h4 : st.snapMapped block
  · rw [if_pos h4] at ha
    by_cases h5 : clear ≠ 0 ∧ ¬ st.zeroOk
    · rw [if_pos h5] at ha; exact absurd ha (by simp)
    · rw [if_neg h5, cowed_allocated] at ha; exact absurd ha (by simp)
  rw [if_neg h4] at ha ⊢
  have hb : st.snapMapped block = false := Bool.eq_false_iff.mpr h4
  by_cases h6 : cmd = SnapshotCmd.read
  · rw [if_pos h6] at ha; exact absurd ha (by simp)
  rw [if_neg h6] at ha ⊢
  by_cases h7 : cmd = SnapshotCmd.move
  · rw [if_pos h7] at ha
    cases inode with
    | none =>
      rw [cowed_allocated] at ha; exact absurd ha (by simp)
    | some i =>
      simp only at ha
      by_cases h8 : (if st.moveOk then tcb.toNat else 0) > 0
      · rw [if_pos h8, cowed_allocated] at ha; exact absurd ha (by simp)
      · rw [if_neg h8] at ha; exact absurd ha (by simp)
  rw [if_neg h7] at ha ⊢
  by_cases h9 : cmd = SnapshotCmd.clear
  · rw [if_pos h9] at ha; exact absurd ha (by simp)
  rw [if_neg h9] at ha ⊢
  cases bh with
  | none => exact absurd ha (by simp)
  | some b =>
    simp only at ha ⊢
    by_cases h10 : ¬ b.mapped ∨ b.blocknr ≠ block
    · rw [if_pos h10] at ha; exact absurd ha (by simp)
    rw [if_neg h10] at ha ⊢
    by_cases h11 : ¬ b.uptodate ∧ ¬ st.readBufOk
    · rw [if_pos h11] at ha; exact absurd ha (by simp)
    rw [if_neg h11] at ha ⊢
    by_cases h12 : ¬ st.allocOk
    · rw [if_pos h12] at ha; exact absurd ha (by simp)
    rw [if_neg h12] at ha ⊢
    by_cases h13 : ¬ st.copyOk
    · rw [if_pos h13]
      refine ⟨hb, ?_⟩
      dsimp only
      rw [if_pos rfl]
    rw [if_neg h13]
    by_cases h14 : clear ≠ 0 ∧ ¬ st.zeroOk
    · rw [if_pos h14]
      refine ⟨hb, ?_⟩
      dsimp only
      rw [if_pos rfl]
    rw [if_neg h14]
    refine ⟨hb, ?_⟩
    rw [cowed_snapMapped]
    dsimp only
    rw [if_pos rfl]

theorem test_and_cow_alloc_unmapped (handle : JournalHandle)
    (inode : Option Nat) (bh : Option BufArg) (block maxblocks : Nat)
    (cmd : SnapshotCmd) (st : CowState)
    (ha : (next3_snapshot_test_and_cow handle inode bh block maxblocks cmd
        st).allocated = true) :
    st.snapMapped block = false ∧
    (next3_snapshot_test_and_cow handle inode bh block maxblocks cmd
        st).st.snapMapped block = true := by
  unfold next3_snapshot_test_and_cow at ha ⊢
  cases hA : st.activeIno with
  | none => rw [hA] at ha; exact absurd ha (by simp)
  | some a =>
    rw [hA] at ha
    simp only at ha ⊢
    split at ha
    · exact absurd ha (by simp)
    split at ha
    · exact absurd ha (by simp)
    split at ha
    · exact absurd ha (by simp)
    split at ha
    · exact absurd ha (by simp)
    rename_i hx1 hx2 hx3 hx4
    rw [if_neg hx1, if_neg hx2, if_neg hx3, if_neg hx4]
    exact exec_alloc_unmapped _ _ _ _ _ _ _ _ _ ha

/-- One invocation of the COW engine within a run of a transaction:
the arguments of a `next3_snapshot_test_and_cow` call. -/
structure CowCall where
  handle : JournalHandle
  inode : Option Nat
  bh : Option BufArg
  block : Nat
  maxblocks : Nat
  cmd : SnapshotCmd

/-- Run a sequence of COW-engine invocations, threading the state, and
count how many of them allocate-and-copy a snapshot block for the
physical block `B`. -/
def runCowCalls (B : Nat) : List CowCall → CowState → Nat
  | [], _ => 0
  | c :: cs, st =>
    (if (next3_snapshot_test_and_cow c.handle c.inode c.bh c.block
          c.maxblocks c.cmd st).allocated = true ∧ c.block = B
     then 1 else 0) +
    runCowCalls B cs
      (next3_snapshot_test_and_cow c.handle c.inode c.bh c.block c.maxblocks
        c.cmd st).st

theorem runCowCalls_zero_of_mapped (B : Nat) (calls : List CowCall)
    (st : CowState) (h : st.snapMapped B = true) :
    runCowCalls B calls st = 0 := by
  induction calls generalizing st with
  | nil => rfl
  | cons c cs ih =>
    unfold runCowCalls
    rw [ih _ (test_and_cow_snapMapped_mono c.handle c.inode c.bh c.block
      c.maxblocks c.cmd st B h)]
    rw [if_neg]
    intro hc
    have := (test_and_cow_alloc_unmapped c.handle c.inode c.bh c.block
      c.maxblocks c.cmd st hc.1).1
    rw [hc.2] at this
    rw [h] at this
    cases this

theorem runCowCalls_le_one (B : Nat) (calls : List CowCall) (st : CowState) :
    runCowCalls B calls st ≤ 1 := by
  induction calls generalizing st with
  | nil => exact Nat.zero_le 1
  | cons c cs ih =>
    unfold runCowCalls
    by_cases hc : (next3_snapshot_test_and_cow c.handle c.inode c.bh c.block
        c.maxblocks c.cmd st).allocated = true ∧ c.block = B
    · rw [if_pos hc]
      obtain ⟨h1, h2⟩ := hc
      subst h2
      have hmap := (test_and_cow_alloc_unmapped c.handle c.inode c.bh c.block
        c.maxblocks c.cmd st h1).2
      rw [runCowCalls_zero_of_mapped c.block cs _ hmap]
    · rw [if_neg hc]
      exact Nat.le_trans (Nat.le_of_eq (Nat.zero_add _)) (ih _)

/-- C1: per-transaction COW idempotence.  First conjunct: an invocation
of `next3_snapshot_test_and_cow` on a buffer whose journal-head
`b_cow_tid` equals the running transaction's tid returns 0 immediately
with no state change and no allocation (provided the owner is not the
active snapshot itself, which is denied earlier).  Second conjunct:
across any sequence of invocations, at most one allocates-and-copies a
snapshot block for a given physical block; within a single transaction
in particular, the allocation+copy for a buffer happens at most
once. -/
theorem C1_cow_idempotence :
    (∀ (handle : JournalHandle) (inode : Option Nat) (b : BufArg)
        (block maxblocks : Nat) (cmd : SnapshotCmd) (st : CowState),
      st.jhCowTid b.blocknr = some handle.tid →
      (∀ a, st.activeIno = some a → inode ≠ some a) →
      next3_snapshot_test_and_cow handle inode (some b) block maxblocks cmd
          st = ⟨0, st, false⟩) ∧
    (∀ (B : Nat) (calls : List CowCall) (st : CowState),
      runCowCalls B calls st ≤ 1) := by
  exact ⟨fun handle inode b block maxblocks cmd st hmark hact =>
      test_and_cow_marked_noop handle inode b block maxblocks cmd st hmark
        hact,
    runCowCalls_le_one⟩

/-- Witness for C1 at concrete inputs: a buffer already marked COWed in
transaction 7 is skipped with no state change, and a two-call run that
COWs block 20 twice performs exactly one allocation. -/
theorem C1_witness :
    next3_snapshot_test_and_cow ⟨7, false⟩ none (some ⟨20, true, true⟩) 20 1
        SnapshotCmd.copy
        { activeIno := some 12, snapshotBlocks := 100, cowBitmapRead := true,
          cowBit := fun _ => true, snapMapped := fun _ => false,
          jhCowTid := fun _ => some 7, excluded := fun _ => 0,
          excludeBit := fun _ => false, excludeReadOk := true,
          excludeWriteOk := true, fixExclude := false, allocOk := true,
          copyOk := true, readBufOk := true, zeroOk := true,
          moveOk := true } =
      ⟨0,
        { activeIno := some 12, snapshotBlocks := 100, cowBitmapRead := true,
          cowBit := fun _ => true, snapMapped := fun _ => false,
          jhCowTid := fun _ => some 7, excluded := fun _ => 0,
          excludeBit := fun _ => false, excludeReadOk := true,
          excludeWriteOk := true, fixExclude := false, allocOk := true,
          copyOk := true, readBufOk := true, zeroOk := true,
          moveOk := true }, false⟩ ∧
    runCowCalls 20
        [⟨⟨7, false⟩, none, some ⟨20, true, true⟩, 20, 1, SnapshotCmd.copy⟩,
         ⟨⟨7, false⟩, none, some ⟨20, true, true⟩, 20, 1, SnapshotCmd.copy⟩]
        { activeIno := some 12, snapshotBlocks := 100, cowBitmapRead := true,
          cowBit := fun _ => true, snapMapped := fun _ => false,
          jhCowTid := fun _ => none, excluded := fun _ => 0,
          excludeBit := fun _ => false, excludeReadOk := true,
          excludeWriteOk := true, fixExclude := false, allocOk := true,
          copyOk := true, readBufOk := true, zeroOk := true,
          moveOk := true } ≤ 1 := by
  constructor
  · exact C1_cow_idempotence.1 ⟨7, false⟩ none ⟨20, true, true⟩ 20 1
      SnapshotCmd.copy _ rfl (fun a _ hi => Option.noConfusion hi)
  · exact C1_cow_idempotence.2 20 _ _

/-- C7 counterexample: a snapshot inode that is not on the snapshot list
(LIST flag clear) and whose predecessor link does not point at the
chain head (it is unlinked, pointing at itself) gets a NORMAL READ
(return 0) from `next3_snapshot_get_inode_access`, not a stale-inode
denial as the claim states. -/
theorem C7_counterexample :
    next3_snapshot_get_inode_access none
        { listFl := false, activeFl := false, isActive := false,
          prev := PrevPtr.unlinked } (SNAPSHOT_BLOCK_OFFSET + 5)
        SnapmapCmd.read = AccessResult.res 0 none ∧
    AccessResult.res (0 : Int) none ≠ AccessResult.res (-eioErr) none ∧
    (PrevPtr.unlinked : PrevPtr) ≠ PrevPtr.head := by
  refine ⟨?_, by decide, by decide⟩
  rfl

/-- C7 (amended): a snapshot inode whose LIST flag is clear — an old
snapshot removed from the list or a new one being created — always
gets a normal read; the stale-inode `-EIO` denial instead applies to a
snapshot-image read of an inode whose LIST flag is set but which is no
longer linked on the snapshot chain (empty chain link). -/
theorem C7_stale_snapshot_read_routing :
    (∀ (handle : Option JournalHandle) (st : InodeAccessState) (iblock : Nat)
        (cmd : SnapmapCmd),
      SNAPMAP_ISSPECIAL cmd = false →
      (cmdNonzero cmd &&
        (match handle with | some h => h.cowing | none => false)) = false →
      st.listFl = false →
      next3_snapshot_get_inode_access handle st iblock cmd =
        AccessResult.res 0 none) ∧
    (∀ (st : InodeAccessState) (iblock : Nat),
      st.listFl = true → SNAPSHOT_BLOCK_OFFSET ≤ iblock →
      st.prev = PrevPtr.unlinked →
      next3_snapshot_get_inode_access none st iblock SnapmapCmd.read =
        AccessResult.res (-eioErr) none) := by
  constructor
  · intro handle st iblock cmd hsp hbug hl
    unfold next3_snapshot_get_inode_access
    rw [hsp, hbug, hl]
    simp
  · intro st iblock hl hge hprev
    unfold next3_snapshot_get_inode_access
    rw [hl, hprev]
    simp only [SNAPMAP_ISSPECIAL, cmdNonzero]
    rw [if_neg (by simp), if_neg (by simp), if_neg (by simp),
      if_neg (Nat.not_lt.mpr hge)]
    simp

/-- Witness for the amended C7 at concrete inputs: a removed snapshot
(LIST clear, unlinked) gets a normal read; a listed but unlinked
snapshot gets the stale `-EIO` on an image read. -/
theorem C7_witness :
    next3_snapshot_get_inode_access none
        { listFl := false, activeFl := false, isActive := false,
          prev := PrevPtr.unlinked } 3 SnapmapCmd.read =
      AccessResult.res 0 none ∧
    next3_snapshot_get_inode_access none
        { listFl := true, activeFl := false, isActive := false,
          prev := PrevPtr.unlinked } (SNAPSHOT_BLOCK_OFFSET + 5)
        SnapmapCmd.read = AccessResult.res (-eioErr) none := by
  constructor
  · exact C7_stale_snapshot_read_routing.1 none _ 3 SnapmapCmd.read rfl rfl
      rfl
  · exact C7_stale_snapshot_read_routing.2 _ (SNAPSHOT_BLOCK_OFFSET + 5) rfl
      (by norm_num) rfl

/-- The per-inode snapshot status flags and sizes used by the lifecycle
operations and `next3_snapshot_update` (the `NEXT3_SNAPFILE_*_FL` bits
of `ei->i_flags`, plus `i_size`/`i_disksize`). -/
structure Snap where
  ino : Nat
  listFl : Bool
  enabledFl : Bool
  deletedFl : Bool
  activeFl : Bool
  inuseFl : Bool
  shrunkFl : Bool
  openFl : Bool
  nodumpFl : Bool
  i_size : Nat
  disksize : Nat
  deriving Repr, DecidableEq

/-- `next3_snapshot_enable` (snapshot.c:2477): refuse inodes not on the
snapshot list with `-EINVAL`, refuse deleted (or detached) snapshots
with `-EPERM`, else set `i_size` to the disksize
(`SNAPSHOT_SET_ENABLED`, enabling loop mount) and set `ENABLED`. -/
def next3_snapshot_enable (ei : Snap) : Int × Snap :=
  if ¬ ei.listFl then (-EINVAL, ei)
  else if ei.deletedFl ∨ ¬ ei.listFl then (-EPERM, ei)
  else (0, { ei with i_size := ei.disksize, enabledFl := true })

/-- `next3_snapshot_disable` (snapshot.c:2515): refuse inodes not on the
snapshot list with `-EINVAL`, refuse open (mounted) snapshots with
`-EPERM`, else zero `i_size` (`SNAPSHOT_SET_DISABLED`) and clear
`ENABLED`. -/
def next3_snapshot_disable (ei : Snap) : Int × Snap :=
  if ¬ ei.listFl then (-EINVAL, ei)
  else if ei.openFl then (-EPERM, ei)
  else (0, { ei with i_size := 0, enabledFl := false })

/-- `next3_snapshot_delete` (snapshot.c:2553): refuse inodes not on the
snapshot list with `-EINVAL`, refuse enabled snapshots with `-EPERM`,
else mark `DELETED` for later cleanup. -/
def next3_snapshot_delete (ei : Snap) : Int × Snap :=
  if ¬ ei.listFl then (-EINVAL, ei)
  else if ei.enabledFl then (-EPERM, ei)
  else (0, { ei with deletedFl := true })

/-- C8: lifecycle preconditions.  On a listed snapshot: enable of a
DELETED snapshot, disable of an OPEN snapshot, and delete of an
ENABLED snapshot each fail with `-EPERM`, and in each failing case the
snapshot's flags are unchanged (the returned inode state is exactly
the input state). -/
theorem C8_lifecycle_preconditions (ei : Snap) :
    (ei.listFl = true → ei.deletedFl = true →
      next3_snapshot_enable ei = (-EPERM, ei)) ∧
    (ei.listFl = true → ei.openFl = true →
      next3_snapshot_disable ei = (-EPERM, ei)) ∧
    (ei.listFl = true → ei.enabledFl = true →
      next3_snapshot_delete ei = (-EPERM, ei)) := by
  refine ⟨?_, ?_, ?_⟩
  · intro hl hd
    unfold next3_snapshot_enable
    rw [if_neg (by simp [hl]), if_pos (Or.inl hd)]
  · intro hl ho
    unfold next3_snapshot_disable
    rw [if_neg (by simp [hl]), if_pos ho]
  · intro hl he
    unfold next3_snapshot_delete
    rw [if_neg (by simp [hl]), if_pos he]

/-- Witness for C8 at a concrete input: a listed snapshot that is
deleted, open and enabled at once; all three operations return
`-EPERM` and leave it unchanged. -/
theorem C8_witness :
    next3_snapshot_enable
        ⟨5, true, true, true, false, false, false, true, false, 0, 4096⟩ =
      (-EPERM,
        ⟨5, true, true, true, false, false, false, true, false, 0, 4096⟩) ∧
    next3_snapshot_disable
        ⟨5, true, true, true, false, false, false, true, false, 0, 4096⟩ =
      (-EPERM,
        ⟨5, true, true, true, false, false, false, true, false, 0, 4096⟩) ∧
    next3_snapshot_delete
        ⟨5, true, true, true, false, false, false, true, false, 0, 4096⟩ =
      (-EPERM,
        ⟨5, true, true, true, false, false, false, true, false, 0, 4096⟩) := by
  have h := C8_lifecycle_preconditions
    ⟨5, true, true, true, false, false, false, true, false, 0, 4096⟩
  exact ⟨h.1 rfl rfl, h.2.1 rfl rfl, h.2.2 rfl rfl⟩

/-- Phase of one task running `next3_snapshot_read_cow_bitmap`
(snapshot.c:486) for a fixed block group: not yet started, sleeping in
the pending-COW wait loop, holding the in-progress claim and building
the COW bitmap, reading a committed COW bitmap block (`sb_bread`),
finished, or failed (after resetting the cache field). -/
inductive RdvPhase
  | idle
  | waiting
  | materializing
  | reading (blk : Nat)
  | done (blk : Nat)
  | failed
  deriving Repr, DecidableEq

/-- Shared state of the COW-bitmap rendezvous for one block group: the
group descriptor's `bg_cow_bitmap` field and the phase of every task.
Each transition of `RdvStep` is one of the spinlocked critical
sections (snapshot.c:506-539) or a completion (snapshot.c:594-605). -/
structure RdvState where
  cowBitmapBlk : Nat
  phase : Nat → RdvPhase

/-- The state after a snapshot take resets the per-group COW bitmap
cache (`next3_snapshot_reset_bitmap_cache`): field 0, no task
running. -/
def rdvInit : RdvState := { cowBitmapBlk := 0, phase := fun _ => .idle }

/-- One atomic step of the COW-bitmap rendezvous of
`next3_snapshot_read_cow_bitmap`, for a group whose block bitmap lives
in block `bitmapBlk` and whose snapshot-file allocator yields blocks
satisfying `validSnapBlk`:
- `observe_zero`: the spinlocked read finds 0 and claims materialization
  by writing the in-progress marker `bitmapBlk` (snapshot.c:512-517).
- `observe_pending`: the spinlocked read finds the marker; the task goes
  to (or stays in) the `msleep` wait loop (snapshot.c:528-538).
- `observe_done`: the spinlocked read finds a committed COW bitmap block
  and the task proceeds to read it (snapshot.c:542-543).
- `read_done`: `sb_bread` of the committed block completes.
- `finish_ok`: the materializer commits its new COW bitmap block under
  the spinlock (snapshot.c:595-598).
- `finish_fail`: the materializer fails and resets the field to 0 under
  the spinlock (snapshot.c:599-604). -/
inductive RdvStep (bitmapBlk : Nat) (validSnapBlk : Nat → Prop) :
    RdvState → RdvState → Prop
  | observe_zero (t : Nat) (s : RdvState) :
      (s.phase t = .idle ∨ s.phase t = .waiting) →
      s.cowBitmapBlk = 0 →
      RdvStep bitmapBlk validSnapBlk s
        { cowBitmapBlk := bitmapBlk,
          phase := fun u => if u = t then .materializing else s.phase u }
  | observe_pending (t : Nat) (s : RdvState) :
      (s.phase t = .idle ∨ s.phase t = .waiting) →
      s.cowBitmapBlk = bitmapBlk →
      RdvStep bitmapBlk validSnapBlk s
        { s with phase := fun u => if u = t then .waiting else s.phase u }
  | observe_done (t : Nat) (s : RdvState) :
      (s.phase t = .idle ∨ s.phase t = .waiting) →
      s.cowBitmapBlk ≠ 0 → s.cowBitmapBlk ≠ bitmapBlk →
      RdvStep bitmapBlk validSnapBlk s
        { s with phase := fun u =>
            if u = t then .reading s.cowBitmapBlk else s.phase u }
  | read_done (t : Nat) (s : RdvState) (blk : Nat) :
      s.phase t = .reading blk →
      RdvStep bitmapBlk validSnapBlk s
        { s with phase := fun u => if u = t then .done blk else s.phase u }
  | finish_ok (t : Nat) (s : RdvState) (blk : Nat) :
      s.phase t = .materializing →
      validSnapBlk blk →
      RdvStep bitmapBlk validSnapBlk s
        { cowBitmapBlk := blk,
          phase := fun u => if u = t then .done blk else s.phase u }
  | finish_fail (t : Nat) (s : RdvState) :
      s.phase t = .materializing →
      RdvStep bitmapBlk validSnapBlk s
        { cowBitmapBlk := 0,
          phase := fun u => if u = t then .failed else s.phase u }

/-- States reachable from the freshly reset rendezvous. -/
inductive RdvReachable (bitmapBlk : Nat) (validSnapBlk : Nat → Prop) :
    RdvState → Prop
  | init : RdvReachable bitmapBlk validSnapBlk rdvInit
  | step {s s' : RdvState} : RdvReachable bitmapBlk validSnapBlk s →
      RdvStep bitmapBlk validSnapBlk s s' →
      RdvReachable bitmapBlk validSnapBlk s'

/-- The rendezvous invariant: the `bg_cow_bitmap` field is in one of
exactly three states (0, the in-progress marker, or a valid
snapshot-file block); at most one task is materializing; and the
marker is up exactly while a materializer is running. -/
def RdvInv (bitmapBlk : Nat) (validSnapBlk : Nat → Prop) (s : RdvState) :
    Prop :=
  (s.cowBitmapBlk = 0 ∨ s.cowBitmapBlk = bitmapBlk ∨
    validSnapBlk s.cowBitmapBlk) ∧
  (∀ t u, s.phase t = .materializing → s.phase u = .materializing → t = u) ∧
  (s.cowBitmapBlk = bitmapBlk ↔ ∃ t, s.phase t = .materializing)

theorem rdv_inv_step {bitmapBlk : Nat} {validSnapBlk : Nat → Prop}
    (hbb : bitmapBlk ≠ 0)
    (hv : ∀ b, validSnapBlk b → b ≠ 0 ∧ b ≠ bitmapBlk)
    {s s' : RdvState} (hinv : RdvInv bitmapBlk validSnapBlk s)
    (hstep : RdvStep bitmapBlk validSnapBlk s s') :
    RdvInv bitmapBlk validSnapBlk s' := by
  obtain ⟨h3, hmx, hiff⟩ := hinv
  cases hstep with
  | observe_zero t _ hph h0 =>
    refine ⟨Or.inr (Or.inl rfl), ?_, ?_⟩
    · intro a b ha hb
      simp only at ha hb
      by_cases hat : a = t
      · by_cases hbt : b = t
        · rw [hat, hbt]
        · rw [if_neg hbt] at hb
          have hx := hiff.mpr ⟨b, hb⟩
          rw [h0] at hx
          exact absurd hx.symm hbb
      · rw [if_neg hat] at ha
        have hx := hiff.mpr ⟨a, ha⟩
        rw [h0] at hx
        exact absurd hx.symm hbb
    · constructor
      · intro _
        exact ⟨t, by simp⟩
      · intro _
        rfl
  | observe_pending t _ hph hbm =>
    refine ⟨h3, ?_, ?_⟩
    · intro a b ha hb
      simp only at ha hb
      by_cases hat : a = t
      · rw [if_pos hat] at ha
        cases ha
      · rw [if_neg hat] at ha
        by_cases hbt : b = t
        · rw [if_pos hbt] at hb
          cases hb
        · rw [if_neg hbt] at hb
          exact hmx a b ha hb
    · constructor
      · intro hf
        obtain ⟨m, hm⟩ := hiff.mp hf
        have hmt : m ≠ t := by
          intro he
          rw [he] at hm
          cases hph with
          | inl hx => rw [hx] at hm; cases hm
          | inr hx => rw [hx] at hm; cases hm
        exact ⟨m, by simp only; rw [if_neg hmt]; exact hm⟩
      · intro hex
        obtain ⟨m, hm⟩ := hex
        simp only at hm
        by_cases hmt : m = t
        · rw [if_pos hmt] at hm
          cases hm
        · rw [if_neg hmt] at hm
          exact hiff.mpr ⟨m, hm⟩
  | observe_done t _ hph hne hnb =>
    refine ⟨h3, ?_, ?_⟩
    · intro a b ha hb
      simp only at ha hb
      by_cases hat : a = t
      · rw [if_pos hat] at ha
        cases ha
      · rw [if_neg hat] at ha
        by_cases hbt : b = t
        · rw [if_pos hbt] at hb
          cases hb
        · rw [if_neg hbt] at hb
          exact hmx a b ha hb
    · constructor
      · intro hf
        obtain ⟨m, hm⟩ := hiff.mp hf
        have hmt : m ≠ t := by
          intro he
          rw [he] at hm
          cases hph with
          | inl hx => rw [hx] at hm; cases hm
          | inr hx => rw [hx] at hm; cases hm
        exact ⟨m, by simp only; rw [if_neg hmt]; exact hm⟩
      · intro hex
        obtain ⟨m, hm⟩ := hex
        simp only at hm
        by_cases hmt : m = t
        · rw [if_pos hmt] at hm
          cases hm
        · rw [if_neg hmt] at hm
          exact hiff.mpr ⟨m, hm⟩
  | read_done t _ blk hrd =>
    refine ⟨h3, ?_, ?_⟩
    · intro a b ha hb
      simp only at ha hb
      by_cases hat : a = t
      · rw [if_pos hat] at ha
        cases ha
      · rw [if_neg hat] at ha
        by_cases hbt : b = t
        · rw [if_pos hbt] at hb
          cases hb
        · rw [if_neg hbt] at hb
          exact hmx a b ha hb
    · constructor
      · intro hf
        obtain ⟨m, hm⟩ := hiff.mp hf
        have hmt : m ≠ t := by
          intro he
          rw [he, hrd] at hm
          cases hm
        exact ⟨m, by simp only; rw [if_neg hmt]; exact hm⟩
      · intro hex
        obtain ⟨m, hm⟩ := hex
        simp only at hm
        by_cases hmt : m = t
        · rw [if_pos hmt] at hm
          cases hm
        · rw [if_neg hmt] at hm
          exact hiff.mpr ⟨m, hm⟩
  | finish_ok t _ blk hmat hvb =>
    refine ⟨Or.inr (Or.inr hvb), ?_, ?_⟩
    · intro a b ha hb
      simp only at ha hb
      by_cases hat : a = t
      · rw [if_pos hat] at ha
        cases ha
      · rw [if_neg hat] at ha
        exact absurd (hmx a t ha hmat) hat
    · constructor
      · intro hf
        exact absurd hf ((hv blk hvb).2)
      · intro hex
        obtain ⟨m, hm⟩ := hex
        simp only at hm
        by_cases hmt : m = t
        · rw [if_pos hmt] at hm
          cases hm
        · rw [if_neg hmt] at hm
          exact absurd (hmx m t hm hmat) hmt
  | finish_fail t _ hmat =>
    refine ⟨Or.inl rfl, ?_, ?_⟩
    · intro a b ha hb
      simp only at ha hb
      by_cases hat : a = t
      · rw [if_pos hat] at ha
        cases ha
      · rw [if_neg hat] at ha
        exact absurd (hmx a t ha hmat) hat
    · constructor
      · intro hf
        exact absurd hf.symm hbb
      · intro hex
        obtain ⟨m, hm⟩ := hex
        simp only at hm
        by_cases hmt : m = t
        · rw [if_pos hmt] at hm
          cases hm
        · rw [if_neg hmt] at hm
          exact absurd (hmx m t hm hmat) hmt

/-- C3: the COW-bitmap materialization rendezvous.  For every reachable
state of the protocol: (1) the group descriptor's `bg_cow_bitmap`
field takes only the three states 0 (not attempted), the group's block
bitmap block (in-progress marker) or a valid snapshot-file block, at
most one task is materializing at any time, and the marker is up
exactly while a materializer runs (so materialization is claimed
exactly once per committed bitmap); (2) once the field holds a
committed (valid) COW bitmap block, no step changes it again —
materialization happens at most once per (group, active snapshot);
(3) a task that finds the in-progress marker can only wait, never
proceed to materialize or read in that step; (4) after a failure
resets the field to 0, any idle or waiting task may claim
materialization again (retry is allowed). -/
theorem C3_cow_bitmap_rendezvous (bitmapBlk : Nat)
    (validSnapBlk : Nat → Prop) (hbb : bitmapBlk ≠ 0)
    (hv : ∀ b, validSnapBlk b → b ≠ 0 ∧ b ≠ bitmapBlk) :
    (∀ s, RdvReachable bitmapBlk validSnapBlk s →
      RdvInv bitmapBlk validSnapBlk s) ∧
    (∀ s s', RdvReachable bitmapBlk validSnapBlk s →
      validSnapBlk s.cowBitmapBlk →
      RdvStep bitmapBlk validSnapBlk s s' →
      s'.cowBitmapBlk = s.cowBitmapBlk) ∧
    (∀ s s' t, RdvStep bitmapBlk validSnapBlk s s' →
      s.cowBitmapBlk = bitmapBlk →
      (s.phase t = RdvPhase.idle ∨ s.phase t = RdvPhase.waiting) →
      (s'.phase t = s.phase t ∨ s'.phase t = RdvPhase.waiting)) ∧
    (∀ s t, s.cowBitmapBlk = 0 →
      (s.phase t = RdvPhase.idle ∨ s.phase t = RdvPhase.waiting) →
      RdvStep bitmapBlk validSnapBlk s
        { cowBitmapBlk := bitmapBlk,
          phase := fun u =>
            if u = t then RdvPhase.materializing else s.phase u }) := by
  have hreach : ∀ s, RdvReachable bitmapBlk validSnapBlk s →
      RdvInv bitmapBlk validSnapBlk s := by
    intro s hr
    induction hr with
    | init =>
      refine ⟨Or.inl rfl, ?_, ?_⟩
      · intro a b ha _
        cases ha
      · constructor
        · intro hf
          exact absurd hf.symm hbb
        · intro hex
          obtain ⟨m, hm⟩ := hex
          cases hm
    | step _ hstep ih => exact rdv_inv_step hbb hv ih hstep
  refine ⟨hreach, ?_, ?_, ?_⟩
  · intro s s' hr hvalid hstep
    obtain ⟨h3, hmx, hiff⟩ := hreach s hr
    cases hstep with
    | observe_zero t _ hph h0 =>
      rw [h0] at hvalid
      exact absurd rfl (hv 0 hvalid).1
    | observe_pending t _ hph hbm => rfl
    | observe_done t _ hph hne hnb => rfl
    | read_done t _ blk hrd => rfl
    | finish_ok t _ blk hmat hvb =>
      exact absurd (hiff.mpr ⟨t, hmat⟩) (hv _ hvalid).2
    | finish_fail t _ hmat =>
      exact absurd (hiff.mpr ⟨t, hmat⟩) (hv _ hvalid).2
  · intro s s' t hstep hf hph
    cases hstep with
    | observe_zero tc _ hphc h0 =>
      rw [hf] at h0
      exact absurd h0 hbb
    | observe_pending tc _ hphc hbm =>
      simp only
      by_cases htc : t = tc
      · rw [if_pos htc]
        exact Or.inr rfl
      · rw [if_neg htc]
        exact Or.inl rfl
    | observe_done tc _ hphc hne hnb => exact absurd hf hnb
    | read_done tc _ blk hrd =>
      simp only
      by_cases htc : t = tc
      · rw [htc] at hph
        cases hph with
        | inl hx => rw [hx] at hrd; cases hrd
        | inr hx => rw [hx] at hrd; cases hrd
      · rw [if_neg htc]
        exact Or.inl rfl
    | finish_ok tc _ blk hmat hvb =>
      simp only
      by_cases htc : t = tc
      · rw [htc] at hph
        cases hph with
        | inl hx => rw [hx] at hmat; cases hmat
        | inr hx => rw [hx] at hmat; cases hmat
      · rw [if_neg htc]
        exact Or.inl rfl
    | finish_fail tc _ hmat =>
      simp only
      by_cases htc : t = tc
      · rw [htc] at hph
        cases hph with
        | inl hx => rw [hx] at hmat; cases hmat
        | inr hx => rw [hx] at hmat; cases hmat
      · rw [if_neg htc]
        exact Or.inl rfl
  · intro s t hf hph
    exact RdvStep.observe_zero t s hph hf

/-- Witness for C3 at a concrete instantiation (block bitmap at block 1,
the allocator yields block 2): the invariant holds at the freshly
reset state, and from it task 0 may claim materialization. -/
theorem C3_witness :
    RdvInv 1 (fun b => b = 2) rdvInit ∧
    RdvStep 1 (fun b => b = 2) rdvInit
      { cowBitmapBlk := 1,
        phase := fun u =>
          if u = 0 then RdvPhase.materializing else rdvInit.phase u } := by
  have h := C3_cow_bitmap_rendezvous 1 (fun b => b = 2) (by decide)
    (fun b hb => by rw [hb]; exact ⟨by decide, by decide⟩)
  exact ⟨h.1 rdvInit RdvReachable.init, h.2.2.2 rdvInit 0 rfl (Or.inl rfl)⟩

/-- `next3_snapshot_remove` (snapshot.c:2585) defers (leaves the
snapshot on the chain) when `ENABLED`, `INUSE` or `ACTIVE` is set;
otherwise the snapshot's blocks are freed and it is unlinked. -/
def snapshot_remove_defers (ei : Snap) : Bool :=
  ei.enabledFl || ei.inuseFl || ei.activeFl

/-- The SHRUNK-marking loop at the end of `next3_snapshot_shrink`
(snapshot.c:2858-2880), acting on the chain segment strictly between
`used_by` and the current snapshot, oldest first: mark up to `need`
deleted, not yet shrunk, non-active snapshots as `SHRUNK`.  (The block
frees themselves are below the flag level of this model.) -/
def shrinkMark (need : Nat) : List Snap → List Snap
  | [] => []
  | s :: rest =>
    if need = 0 then s :: rest
    else if s.deletedFl ∧ ¬ (s.shrunkFl ∨ s.activeFl) then
      { s with shrunkFl := true } :: shrinkMark (need - 1) rest
    else s :: shrinkMark need rest

/-- The loop of `next3_snapshot_merge` (snapshot.c:2924-2976) on the
same segment: walk from `used_by` toward newer snapshots, stop at the
first non-`SHRUNK` one, and remove each shrunk snapshot after moving
its blocks (removal defers when `snapshot_remove_defers`). -/
def mergeRun (need : Nat) : List Snap → List Snap
  | [] => []
  | s :: rest =>
    if need = 0 then s :: rest
    else if ¬ s.shrunkFl then s :: rest
    else if snapshot_remove_defers s then s :: mergeRun (need - 1) rest
    else mergeRun (need - 1) rest

/-- Accumulator of the `next3_snapshot_update` walk (oldest-to-newest):
`kept` is the already rebuilt chain up to and including `used_by`
(oldest first), `runAfter` the processed snapshots strictly newer than
`used_by` (the deleted group), and the scalars mirror the C locals
`used_by != NULL`, `found_active`, `found_enabled`, `need_shrink`,
`need_merge`. -/
structure UpdAcc where
  kept : List Snap
  runAfter : List Snap
  usedBySet : Bool
  foundActive : Bool
  foundEnabled : Bool
  needShrink : Nat
  needMerge : Nat
  deriving Repr, DecidableEq

/-- The `LIST` and `No_Dump` flag marking at the top of each
`next3_snapshot_update` iteration (snapshot.c:3494-3497). -/
def update_mark (s0 : Snap) : Snap :=
  { s0 with
    listFl := true,
    nodumpFl := true }

/-- The `ACTIVE` and `INUSE` recomputation (snapshot.c:3514-3525):
`ACTIVE` iff this is the active snapshot, `INUSE` iff an older enabled
non-deleted snapshot was found. -/
def update_recompute (activeIno : Option Nat) (foundEnabled : Bool)
    (s1 : Snap) : Snap :=
  { s1 with
    activeFl := activeIno == some s1.ino,
    inuseFl := foundEnabled }

/-- The deleted/cleanup/bookkeeping part of the loop body
(snapshot.c:3527-3548), applied to the snapshot `s2` with freshly
recomputed `ACTIVE` and `INUSE` flags (`deleted` is
`DELETED && !ACTIVE`, and `found_active` follows from `s2.activeFl`).
With `cleanup`: remove a permanently unused deleted snapshot (deferred
removals stay on the chain), count deleted ones for shrink/merge, and
on a non-deleted one shrink then merge the deleted group and advance
`used_by`. -/
def update_main (cleanup : Bool) (acc : UpdAcc) (s2 : Snap) : UpdAcc :=
  if cleanup then
    if (s2.deletedFl && ! s2.activeFl) && ! acc.usedBySet then
      if snapshot_remove_defers s2 then
        { acc with
          runAfter := acc.runAfter ++ [s2],
          foundActive := acc.foundActive || s2.activeFl }
      else { acc with foundActive := acc.foundActive || s2.activeFl }
    else if s2.deletedFl && ! s2.activeFl then
      { acc with
        runAfter := acc.runAfter ++ [s2],
        foundActive := acc.foundActive || s2.activeFl,
        needShrink := acc.needShrink + (if ! s2.shrunkFl then 1 else 0),
        needMerge := acc.needMerge + (if ! s2.inuseFl then 1 else 0) }
    else
      { kept := acc.kept ++
          (if acc.needMerge > 0 then
            mergeRun acc.needMerge
              (if acc.needShrink > 0 then
                shrinkMark acc.needShrink acc.runAfter
              else acc.runAfter)
           else
            (if acc.needShrink > 0 then
              shrinkMark acc.needShrink acc.runAfter
             else acc.runAfter)) ++ [s2],
        runAfter := [],
        usedBySet := if s2.activeFl then acc.usedBySet else true,
        foundActive := acc.foundActive || s2.activeFl,
        foundEnabled := acc.foundEnabled || s2.enabledFl,
        needShrink := 0,
        needMerge := 0 }
  else
    if s2.deletedFl && ! s2.activeFl then
      { acc with
        runAfter := acc.runAfter ++ [s2],
        foundActive := acc.foundActive || s2.activeFl }
    else
      { kept := acc.kept ++ acc.runAfter ++ [s2],
        runAfter := [],
        usedBySet := if s2.activeFl then acc.usedBySet else true,
        foundActive := acc.foundActive || s2.activeFl,
        foundEnabled := acc.foundEnabled || s2.enabledFl,
        needShrink := acc.needShrink,
        needMerge := acc.needMerge }

/-- One iteration of the `update_snapshot:` loop of
`next3_snapshot_update` (snapshot.c:3489-3553) on the next-oldest
snapshot `s0`: mark `LIST`/`No_Dump`; snapshots later than the active
one (failed take) are removed unless mounted read-only or removal
defers; otherwise recompute the flags and run the main
deleted/cleanup/bookkeeping part. -/
def update_one (cleanup read_only : Bool) (activeIno : Option Nat)
    (acc : UpdAcc) (s0 : Snap) : UpdAcc :=
  if acc.foundActive || (activeIno == none) then
    if read_only then
      { acc with runAfter := acc.runAfter ++ [update_mark s0] }
    else if snapshot_remove_defers (update_mark s0) then
      { acc with runAfter := acc.runAfter ++ [update_mark s0] }
    else acc
  else
    update_main cleanup acc
      (update_recompute activeIno acc.foundEnabled (update_mark s0))

/-- The final block of `next3_snapshot_update` (snapshot.c:3556-3578):
when cleaning up with no snapshot in use and a deleted active
snapshot, deactivate it (clear its `ACTIVE` flag and the on-disk
pointer) and remove it (removal defers when still `ENABLED` or
`INUSE`).  `a` is the active inode number; the chain is oldest
first. -/
def update_deactivate (a : Nat) : List Snap → List Snap
  | [] => []
  | s :: rest =>
    if s.ino = a then
      (if ({ s with activeFl := false } : Snap).enabledFl ||
          ({ s with activeFl := false } : Snap).inuseFl then
        [{ s with activeFl := false }]
       else []) ++ update_deactivate a rest
    else s :: update_deactivate a rest

/-- The pre-loop marking of the active snapshot
(snapshot.c:3479-3481): `i_flags |= ACTIVE|LIST` on the active
snapshot, identified by inode number. -/
def update_premark (activeIno : Option Nat) (chain : List Snap) :
    List Snap :=
  match activeIno with
  | some a => chain.map (fun (s : Snap) =>
      if s.ino = a then { s with activeFl := true, listFl := true } else s)
  | none => chain

/-- The whole `update_snapshot:` walk of `next3_snapshot_update`,
iterating from the oldest snapshot backwards (the premarked chain is
newest first, so the walk folds over its reverse). -/
def update_fold (cleanup read_only : Bool) (activeIno : Option Nat)
    (chain0 : List Snap) : UpdAcc :=
  chain0.reverse.foldl (update_one cleanup read_only activeIno)
    ⟨[], [], false, false, false, 0, 0⟩

/-- The chain contents after the walk, oldest first: the rebuilt chain
up to `used_by` followed by the trailing deleted group. -/
def update_outchain (cleanup read_only : Bool) (activeIno : Option Nat)
    (chain : List Snap) : List Snap :=
  (update_fold cleanup read_only activeIno
    (update_premark activeIno chain)).kept ++
  (update_fold cleanup read_only activeIno
    (update_premark activeIno chain)).runAfter

/-- `next3_snapshot_update` (snapshot.c:3459): the chain `chain` is
newest first (list head is the newest snapshot); `activeIno` is
`sbi->s_active_snapshot`.  Returns the updated chain (newest first)
and the updated active pointer.  The final block (snapshot.c:3556-3578)
deactivates and removes a deleted, unused active snapshot when
cleaning up. -/
def next3_snapshot_update (chain : List Snap) (activeIno : Option Nat)
    (cleanup read_only : Bool) : List Snap × Option Nat :=
  match activeIno with
  | none => ((update_outchain cleanup read_only none chain).reverse, none)
  | some a =>
    if cleanup ∧ ¬ (update_fold cleanup read_only (some a)
        (update_premark (some a) chain)).usedBySet then
      if ((update_outchain cleanup read_only (some a) chain).filter
            (fun s => s.ino == a)).any (fun s => s.deletedFl) then
        ((update_deactivate a
            (update_outchain cleanup read_only (some a) chain)).reverse,
          none)
      else
        ((update_outchain cleanup read_only (some a) chain).reverse, some a)
    else ((update_outchain cleanup read_only (some a) chain).reverse, some a)

/-- A default snapshot record (for positional lookup only). -/
def defaultSnap : Snap :=
  ⟨0, false, false, false, false, false, false, false, false, 0, 0⟩

/-- The claim C6 as stated, over a newest-first chain: every snapshot
with `INUSE` set has at least one NEWER enabled snapshot on the chain
(an element at a smaller index). -/
def C6_claim_prop (c : List Snap) : Prop :=
  ∀ i, i < c.length →
    ((c.getD i defaultSnap).inuseFl = true →
      (c.take i).any (fun s => s.enabledFl) = true)

instance (c : List Snap) : Decidable (C6_claim_prop c) := by
  unfold C6_claim_prop; infer_instance

/-- C6 counterexample: chain (newest first) = [B, A] with B the active
snapshot (ino 2) and A an older enabled snapshot (ino 1).  After
`next3_snapshot_update` (no cleanup, read-write), B carries `INUSE`
— set because of the OLDER enabled A — yet B, being the newest, has
no newer enabled snapshot, refuting the claim as stated. -/
theorem C6_counterexample :
    ¬ C6_claim_prop
      (next3_snapshot_update
        [⟨2, true, false, false, true, false, false, false, false, 0, 0⟩,
         ⟨1, true, true, false, false, false, false, false, false, 0, 0⟩]
        (some 2) false false).1 := by decide

/-- Walking a chain oldest-to-newest with the strictly older part in
`older`: every snapshot with `INUSE` set has an OLDER enabled,
non-deleted snapshot on the chain. -/
def okFrom (older : List Snap) : List Snap → Prop
  | [] => True
  | s :: rest =>
    (s.inuseFl = true →
      ∃ t ∈ older, t.enabledFl = true ∧ t.deletedFl = false) ∧
    okFrom (older ++ [s]) rest

theorem okFrom_mono (older older2 : List Snap)
    (h : ∀ t ∈ older, t.enabledFl = true ∧ t.deletedFl = false →
      ∃ u ∈ older2, u.enabledFl = true ∧ u.deletedFl = false) :
    ∀ L, okFrom older L → okFrom older2 L := by
  intro L
  induction L generalizing older older2 with
  | nil => intro _; trivial
  | cons s rest ih =>
    intro hk
    obtain ⟨hs, hrest⟩ := hk
    refine ⟨?_, ?_⟩
    · intro hin
      obtain ⟨t, ht, hw⟩ := hs hin
      exact h t ht hw
    · refine ih (older ++ [s]) (older2 ++ [s]) ?_ hrest
      intro t ht hw
      rcases List.mem_append.mp ht with hto | hts
      · obtain ⟨u, hu, hwu⟩ := h t hto hw
        exact ⟨u, List.mem_append_left _ hu, hwu⟩
      · exact ⟨t, List.mem_append_right _ hts, hw⟩

theorem okFrom_of_all (older : List Snap) (M : List Snap)
    (h : ∀ s ∈ M, s.inuseFl = true →
      ∃ t ∈ older, t.enabledFl = true ∧ t.deletedFl = false) :
    okFrom older M := by
  induction M generalizing older with
  | nil => trivial
  | cons s rest ih =>
    refine ⟨h s (List.mem_cons_self s rest), ?_⟩
    refine ih (older ++ [s]) ?_
    intro x hx hin
    obtain ⟨t, ht, hw⟩ := h x (List.mem_cons_of_mem s hx) hin
    exact ⟨t, List.mem_append_left _ ht, hw⟩

theorem okFrom_append (older L M : List Snap) (h1 : okFrom older L)
    (h2 : okFrom (older ++ L) M) : okFrom older (L ++ M) := by
  induction L generalizing older with
  | nil =>
    rw [List.append_nil] at h2
    exact h2
  | cons s rest ih =>
    obtain ⟨hs, hrest⟩ := h1
    refine ⟨hs, ?_⟩
    refine ih (older ++ [s]) hrest ?_
    have he : older ++ [s] ++ rest = older ++ s :: rest := by
      rw [List.append_assoc]
      rfl
    rw [he]
    exact h2

theorem shrinkMark_all (P : Snap → Prop)
    (hP : ∀ y, P y → P { y with shrunkFl := true }) :
    ∀ (n : Nat) (L : List Snap), (∀ y ∈ L, P y) →
      ∀ x ∈ shrinkMark n L, P x := by
  intro n L
  induction L generalizing n with
  | nil => intro _ x hx; cases hx
  | cons s rest ih =>
    intro h x hx
    unfold shrinkMark at hx
    by_cases hn : n = 0
    · rw [if_pos hn] at hx
      exact h x hx
    rw [if_neg hn] at hx
    by_cases hc : s.deletedFl ∧ ¬ (s.shrunkFl ∨ s.activeFl)
    · rw [if_pos hc] at hx
      rcases List.mem_cons.mp hx with hx1 | hx2
      · rw [hx1]
        exact hP s (h s (List.mem_cons_self s rest))
      · exact ih (n - 1) (fun y hy => h y (List.mem_cons_of_mem s hy)) x hx2
    · rw [if_neg hc] at hx
      rcases List.mem_cons.mp hx with hx1 | hx2
      · rw [hx1]
        exact h s (List.mem_cons_self s rest)
      · exact ih n (fun y hy => h y (List.mem_cons_of_mem s hy)) x hx2

theorem mergeRun_all (P : Snap → Prop) :
    ∀ (n : Nat) (L : List Snap), (∀ y ∈ L, P y) →
      ∀ x ∈ mergeRun n L, P x := by
  intro n L
  induction L generalizing n with
  | nil => intro _ x hx; cases hx
  | cons s rest ih =>
    intro h x hx
    unfold mergeRun at hx
    by_cases hn : n = 0
    · rw [if_pos hn] at hx
      exact h x hx
    rw [if_neg hn] at hx
    by_cases hc : ¬ s.shrunkFl
    · rw [if_pos hc] at hx
      exact h x hx
    rw [if_neg hc] at hx
    by_cases hd : snapshot_remove_defers s
    · rw [if_pos hd] at hx
      rcases List.mem_cons.mp hx with hx1 | hx2
      · rw [hx1]
        exact h s (List.mem_cons_self s rest)
      · exact ih (n - 1) (fun y hy => h y (List.mem_cons_of_mem s hy)) x hx2
    · rw [if_neg hd] at hx
      exact ih (n - 1) (fun y hy => h y (List.mem_cons_of_mem s hy)) x hx

/-- Invariant of the update walk: the rebuilt chain up to `used_by`
satisfies the INUSE/older-enabled property; every INUSE snapshot of
the trailing deleted group has an enabled non-deleted witness in the
rebuilt part; and `found_enabled` itself is backed by such a
witness. -/
def UpdInv (acc : UpdAcc) : Prop :=
  okFrom [] acc.kept ∧
  (∀ s ∈ acc.runAfter, s.inuseFl = true →
    ∃ t ∈ acc.kept, t.enabledFl = true ∧ t.deletedFl = false) ∧
  (acc.foundEnabled = true →
    ∃ t ∈ acc.kept, t.enabledFl = true ∧ t.deletedFl = false)

theorem update_main_kept_ok (acc : UpdAcc) (s2 : Snap) (hinv : UpdInv acc)
    (hinuse : s2.inuseFl = acc.foundEnabled) (X : List Snap)
    (hX : ∀ x ∈ X, x.inuseFl = true →
      ∃ t ∈ acc.kept, t.enabledFl = true ∧ t.deletedFl = false) :
    okFrom [] (acc.kept ++ X ++ [s2]) := by
  obtain ⟨hJ1, hJ2, hJ3⟩ := hinv
  rw [List.append_assoc]
  refine okFrom_append [] acc.kept (X ++ [s2]) hJ1 ?_
  rw [List.nil_append]
  refine okFrom_append acc.kept X [s2] ?_ ?_
  · refine okFrom_of_all acc.kept X hX
  · refine ⟨?_, trivial⟩
    intro hin
    rw [hinuse] at hin
    obtain ⟨t, ht, hw⟩ := hJ3 hin
    exact ⟨t, List.mem_append_left _ ht, hw⟩

theorem update_main_shrink_merge_ok (acc : UpdAcc) (hinv : UpdInv acc) :
    ∀ x ∈ (if acc.needMerge > 0 then
        mergeRun acc.needMerge
          (if acc.needShrink > 0 then
            shrinkMark acc.needShrink acc.runAfter
          else acc.runAfter)
       else
        (if acc.needShrink > 0 then
          shrinkMark acc.needShrink acc.runAfter
         else acc.runAfter)),
      x.inuseFl = true →
        ∃ t ∈ acc.kept, t.enabledFl = true ∧ t.deletedFl = false := by
  obtain ⟨hJ1, hJ2, hJ3⟩ := hinv
  have hS : ∀ x ∈ (if acc.needShrink > 0 then
      shrinkMark acc.needShrink acc.runAfter else acc.runAfter),
      x.inuseFl = true →
        ∃ t ∈ acc.kept, t.enabledFl = true ∧ t.deletedFl = false := by
    by_cases hn : acc.needShrink > 0
    · rw [if_pos hn]
      exact shrinkMark_all _ (fun y hy => hy) acc.needShrink acc.runAfter hJ2
    · rw [if_neg hn]
      exact hJ2
  by_cases hm : acc.needMerge > 0
  · rw [if_pos hm]
    exact mergeRun_all _ acc.needMerge _ hS
  · rw [if_neg hm]
    exact hS

theorem update_main_inv (cleanup : Bool) (acc : UpdAcc) (s2 : Snap)
    (hact : s2.activeFl = false)
    (hinuse : s2.inuseFl = acc.foundEnabled)
    (hinv : UpdInv acc) :
    UpdInv (update_main cleanup acc s2) ∧
    (update_main cleanup acc s2).foundActive = acc.foundActive := by
  obtain ⟨hJ1, hJ2, hJ3⟩ := hinv
  have hFA : (acc.foundActive || s2.activeFl) = acc.foundActive := by
    rw [hact, Bool.or_false]
  have hrun : ∀ s ∈ acc.runAfter ++ [s2], s.inuseFl = true →
      ∃ t ∈ acc.kept, t.enabledFl = true ∧ t.deletedFl = false := by
    intro s hsm hin
    rcases List.mem_append.mp hsm with h1 | h2
    · exact hJ2 s h1 hin
    · have hss : s = s2 := List.mem_singleton.mp h2
      rw [hss, hinuse] at hin
      exact hJ3 hin
  unfold update_main
  by_cases hcl : cleanup
  · rw [if_pos hcl]
    by_cases hd1 : ((s2.deletedFl && ! s2.activeFl) && ! acc.usedBySet) = true
    · rw [if_pos hd1]
      by_cases hd2 : snapshot_remove_defers s2 = true
      · rw [if_pos hd2]
        exact ⟨⟨hJ1, hrun, hJ3⟩, hFA⟩
      · rw [if_neg hd2]
        exact ⟨⟨hJ1, hJ2, hJ3⟩, hFA⟩
    · rw [if_neg hd1]
      by_cases hd3 : (s2.deletedFl && ! s2.activeFl) = true
      · rw [if_pos hd3]
        exact ⟨⟨hJ1, hrun, hJ3⟩, hFA⟩
      · rw [if_neg hd3]
        have hdelf : s2.deletedFl = false := by
          rw [hact] at hd3
          simp at hd3
          exact hd3
        refine ⟨⟨?_, ?_, ?_⟩, hFA⟩
        · exact update_main_kept_ok acc s2 ⟨hJ1, hJ2, hJ3⟩ hinuse _
            (update_main_shrink_merge_ok acc ⟨hJ1, hJ2, hJ3⟩)
        · intro s hsm
          cases hsm
        · intro hfe
          rcases Bool.or_eq_true_iff.mp hfe with h1 | h2
          · obtain ⟨t, ht, hw⟩ := hJ3 h1
            exact ⟨t, List.mem_append_left _ (List.mem_append_left _ ht), hw⟩
          · exact ⟨s2,
              List.mem_append_right _ (List.mem_singleton_self s2),
              h2, hdelf⟩
  · rw [if_neg hcl]
    by_cases hd3 : (s2.deletedFl && ! s2.activeFl) = true
    · rw [if_pos hd3]
      exact ⟨⟨hJ1, hrun, hJ3⟩, hFA⟩
    · rw [if_neg hd3]
      have hdelf : s2.deletedFl = false := by
        rw [hact] at hd3
        simp at hd3
        exact hd3
      refine ⟨⟨?_, ?_, ?_⟩, hFA⟩
      · exact update_main_kept_ok acc s2 ⟨hJ1, hJ2, hJ3⟩ hinuse _ hJ2
      · intro s hsm
        cases hsm
      · intro hfe
        rcases Bool.or_eq_true_iff.mp hfe with h1 | h2
        · obtain ⟨t, ht, hw⟩ := hJ3 h1
          exact ⟨t, List.mem_append_left _ (List.mem_append_left _ ht), hw⟩
        · exact ⟨s2,
            List.mem_append_right _ (List.mem_singleton_self s2),
            h2, hdelf⟩

theorem update_main_head (cleanup : Bool) (acc : UpdAcc) (s2 : Snap)
    (hact : s2.activeFl = true)
    (hinuse : s2.inuseFl = acc.foundEnabled)
    (hinv : UpdInv acc) :
    okFrom [] (update_main cleanup acc s2).kept ∧
    (update_main cleanup acc s2).runAfter = [] := by
  have hdd : (s2.deletedFl && ! s2.activeFl) = false := by
    rw [hact]
    simp
  unfold update_main
  by_cases hcl : cleanup
  · rw [if_pos hcl, if_neg (by rw [hdd]; simp), if_neg (by rw [hdd]; simp)]
    exact ⟨update_main_kept_ok acc s2 hinv hinuse _
      (update_main_shrink_merge_ok acc hinv), rfl⟩
  · rw [if_neg hcl, if_neg (by rw [hdd]; simp)]
    exact ⟨update_main_kept_ok acc s2 hinv hinuse _ hinv.2.1, rfl⟩

theorem update_one_inv (cleanup read_only : Bool) (a : Nat) (acc : UpdAcc)
    (s0 : Snap) (hino : s0.ino ≠ a) (hfa : acc.foundActive = false)
    (hinv : UpdInv acc) :
    UpdInv (update_one cleanup read_only (some a) acc s0) ∧
    (update_one cleanup read_only (some a) acc s0).foundActive = false := by
  unfold update_one
  have hcond : (acc.foundActive || ((some a : Option Nat) == none)) = false :=
    by rw [hfa]; rfl
  rw [hcond, if_neg (by simp)]
  have hact : (update_recompute (some a) acc.foundEnabled
      (update_mark s0)).activeFl = false := by
    unfold update_recompute update_mark
    simp only
    exact beq_eq_false_iff_ne.mpr
      (fun h => hino (Option.some.inj h).symm)
  have h := update_main_inv cleanup acc
    (update_recompute (some a) acc.foundEnabled (update_mark s0)) hact rfl
    hinv
  exact ⟨h.1, by rw [h.2, hfa]⟩

theorem update_one_head (cleanup read_only : Bool) (a : Nat) (acc : UpdAcc)
    (s0 : Snap) (hino : s0.ino = a) (hfa : acc.foundActive = false)
    (hinv : UpdInv acc) :
    okFrom [] (update_one cleanup read_only (some a) acc s0).kept ∧
    (update_one cleanup read_only (some a) acc s0).runAfter = [] := by
  unfold update_one
  have hcond : (acc.foundActive || ((some a : Option Nat) == none)) = false :=
    by rw [hfa]; rfl
  rw [hcond, if_neg (by simp)]
  have hact : (update_recompute (some a) acc.foundEnabled
      (update_mark s0)).activeFl = true := by
    unfold update_recompute update_mark
    simp only
    rw [hino]
    exact beq_self_eq_true (some a)
  exact update_main_head cleanup acc _ hact rfl hinv

theorem fold_update_inv (cleanup read_only : Bool) (a : Nat) :
    ∀ (L : List Snap) (acc : UpdAcc), (∀ s ∈ L, s.ino ≠ a) →
      acc.foundActive = false → UpdInv acc →
      UpdInv (L.foldl (update_one cleanup read_only (some a)) acc) ∧
      (L.foldl (update_one cleanup read_only (some a))
        acc).foundActive = false := by
  intro L
  induction L with
  | nil => intro acc _ hfa hinv; exact ⟨hinv, hfa⟩
  | cons s rest ih =>
    intro acc hL hfa hinv
    have h1 := update_one_inv cleanup read_only a acc s
      (hL s (List.mem_cons_self s rest)) hfa hinv
    exact ih _ (fun t ht => hL t (List.mem_cons_of_mem s ht)) h1.2 h1.1

theorem okFrom_deactivate (a : Nat) :
    ∀ (L older : List Snap), okFrom older L →
      okFrom older (update_deactivate a L) := by
  intro L
  induction L with
  | nil => intro older _; trivial
  | cons s rest ih =>
    intro older h
    obtain ⟨hs, hrest⟩ := h
    unfold update_deactivate
    by_cases hsa : s.ino = a
    · rw [if_pos hsa]
      by_cases hkeep : (({ s with activeFl := false } : Snap).enabledFl ||
          ({ s with activeFl := false } : Snap).inuseFl) = true
      · rw [if_pos hkeep]
        rw [List.singleton_append]
        refine ⟨fun hin => hs hin, ?_⟩
        refine okFrom_mono (older ++ [s])
          (older ++ [({ s with activeFl := false } : Snap)]) ?_ _
          (ih (older ++ [s]) hrest)
        intro t ht hw
        rcases List.mem_append.mp ht with h1 | h2
        · exact ⟨t, List.mem_append_left _ h1, hw⟩
        · have hts : t = s := List.mem_singleton.mp h2
          refine ⟨{ s with activeFl := false },
            List.mem_append_right _
              (List.mem_singleton_self _), ?_⟩
          rw [hts] at hw
          exact hw
      · rw [if_neg hkeep]
        rw [List.nil_append]
        refine okFrom_mono (older ++ [s]) older ?_ _ (ih (older ++ [s]) hrest)
        intro t ht hw
        rcases List.mem_append.mp ht with h1 | h2
        · exact ⟨t, h1, hw⟩
        · exfalso
          have hts : t = s := List.mem_singleton.mp h2
          rw [hts] at hw
          apply hkeep
          have he : ({ s with activeFl := false } : Snap).enabledFl = true :=
            hw.1
          rw [he]
          simp
    · rw [if_neg hsa]
      exact ⟨hs, ih (older ++ [s]) hrest⟩

theorem premark_skip (a : Nat) :
    ∀ (L : List Snap), (∀ s ∈ L, s.ino ≠ a) →
      L.map (fun (s : Snap) =>
        if s.ino = a then { s with activeFl := true, listFl := true }
        else s) = L := by
  intro L
  induction L with
  | nil => intro _; rfl
  | cons s rest ih =>
    intro h
    simp only [List.map]
    rw [if_neg (h s (List.mem_cons_self s rest)),
      ih (fun t ht => h t (List.mem_cons_of_mem s ht))]

/-- C6 (amended): after `next3_snapshot_update` completes — with an
active snapshot present and at the head of the chain, as the chain
invariants require — the `INUSE` flag is set only on snapshots that
have at least one OLDER enabled (and non-deleted) snapshot on the
chain.  (`okFrom [] c` walks the chain oldest-to-newest and demands an
older enabled non-deleted witness for every INUSE snapshot; the
resulting chain is newest first, hence the `reverse`.) -/
theorem C6_inuse_only_with_older_enabled (hd : Snap) (rest : List Snap)
    (cleanup read_only : Bool) (hino : ∀ s ∈ rest, s.ino ≠ hd.ino) :
    okFrom []
      ((next3_snapshot_update (hd :: rest) (some hd.ino) cleanup
          read_only).1.reverse) := by
  have hpre : update_premark (some hd.ino) (hd :: rest) =
      ({ hd with activeFl := true, listFl := true } : Snap) :: rest := by
    unfold update_premark
    simp only [List.map]
    rw [premark_skip hd.ino rest hino]
    simp
  have hinit : UpdInv ⟨[], [], false, false, false, 0, 0⟩ := by
    refine ⟨trivial, ?_, ?_⟩
    · intro s hs
      cases hs
    · intro h
      simp at h
  have hacc1 := fold_update_inv cleanup read_only hd.ino rest.reverse
    ⟨[], [], false, false, false, 0, 0⟩
    (fun s hs => hino s (List.mem_reverse.mp hs)) rfl hinit
  have hhead := update_one_head cleanup read_only hd.ino
    (rest.reverse.foldl (update_one cleanup read_only (some hd.ino))
      ⟨[], [], false, false, false, 0, 0⟩)
    ({ hd with activeFl := true, listFl := true } : Snap) rfl hacc1.2
    hacc1.1
  have hout : update_outchain cleanup read_only (some hd.ino) (hd :: rest) =
      (update_one cleanup read_only (some hd.ino)
        (rest.reverse.foldl (update_one cleanup read_only (some hd.ino))
          ⟨[], [], false, false, false, 0, 0⟩)
        ({ hd with activeFl := true, listFl := true } : Snap)).kept := by
    unfold update_outchain update_fold
    rw [hpre, List.reverse_cons, List.foldl_append]
    simp only [List.foldl_cons, List.foldl_nil]
    rw [hhead.2, List.append_nil]
  have hOUT : okFrom []
      (update_outchain cleanup read_only (some hd.ino) (hd :: rest)) := by
    rw [hout]
    exact hhead.1
  have hred : next3_snapshot_update (hd :: rest) (some hd.ino) cleanup
      read_only =
      (if cleanup ∧ ¬ (update_fold cleanup read_only (some hd.ino)
          (update_premark (some hd.ino) (hd :: rest))).usedBySet then
        if ((update_outchain cleanup read_only (some hd.ino)
              (hd :: rest)).filter (fun s => s.ino == hd.ino)).any
            (fun s => s.deletedFl) then
          ((update_deactivate hd.ino
              (update_outchain cleanup read_only (some hd.ino)
                (hd :: rest))).reverse, none)
        else ((update_outchain cleanup read_only (some hd.ino)
            (hd :: rest)).reverse, some hd.ino)
      else ((update_outchain cleanup read_only (some hd.ino)
          (hd :: rest)).reverse, some hd.ino)) := rfl
  rw [hred]
  split
  · split
    · show okFrom [] ((update_deactivate hd.ino
        (update_outchain cleanup read_only (some hd.ino)
          (hd :: rest))).reverse.reverse)
      rw [List.reverse_reverse]
      exact okFrom_deactivate hd.ino _ [] hOUT
    · show okFrom [] ((update_outchain cleanup read_only (some hd.ino)
        (hd :: rest)).reverse.reverse)
      rw [List.reverse_reverse]
      exact hOUT
  · show okFrom [] ((update_outchain cleanup read_only (some hd.ino)
      (hd :: rest)).reverse.reverse)
    rw [List.reverse_reverse]
    exact hOUT

/-- Witness for the amended C6 at the counterexample's input: after the
update over [B(active, ino 2), A(enabled, ino 1)], every INUSE
snapshot of the resulting chain has an older enabled non-deleted
snapshot. -/
theorem C6_witness :
    okFrom []
      ((next3_snapshot_update
        [⟨2, true, false, false, true, false, false, false, false, 0, 0⟩,
         ⟨1, true, true, false, false, false, false, false, false, 0, 0⟩]
        (some 2) false false).1.reverse) := by
  exact C6_inuse_only_with_older_enabled
    ⟨2, true, false, false, true, false, false, false, false, 0, 0⟩
    [⟨1, true, true, false, false, false, false, false, false, 0, 0⟩]
    false false
    (by intro s hs; rw [List.mem_singleton.mp hs]; decide)
